import Mathlib

/-
Verification development for the metadata-remote inference engine
(src/core/inference.py together with the constants of src/config.py).

The Python code is shallowly embedded as total Lean functions:

* strings are Lean strings; Python str.lower / str.strip / str.split are
  modelled by explicit structural functions over the character lists, agreeing on
  the ASCII inputs the engine works with;
* confidences are rationals; Python round() is modelled by round-half-to-even;
* regular expressions are compiled by hand into explicit character scanners
  over ASCII character classes (each scanner documents the regex it embeds);
* the process-wide engine state (query cache and rate-limit timestamp) plus
  the two by-reference arguments of infer_field (existing_metadata and
  folder_context) are threaded explicitly through a Heap record;
* the wall clock is an explicit rational parameter, sleeping advances it;
* the MusicBrainz network is an oracle record; a failed HTTP request or a
  JSON parse error is an oracle result of Except.error;
* cache keys are the pre-hash strings (Python hashes them with md5; the
  embedding treats the hash as injective and keeps the plain string).
-/

namespace MetadataRemote

/-! ## Exact rational numbers

Python floats in the engine are decimal constants (0.7, 0.9, 0.8, halves of
integer thresholds) and ratios of small integers; all the arithmetic is
exact in the rationals. Mathlib's normalized rationals do not reduce inside
the kernel, so the embedding carries its own fraction type with a
denominator that is positive by construction and with no normalization;
everything computes by decide. -/

structure Q where
  num : Int
  dpred : Nat
deriving DecidableEq, Repr

/-- The (always positive) denominator. -/
def Q.den (q : Q) : Nat := q.dpred + 1

/-- Literal fraction with a positive denominator. -/
def mkQ (n : Int) (d : Nat) : Q := ⟨n, d - 1⟩

def Q.ofNat (n : Nat) : Q := ⟨(n : Int), 0⟩

def Q.ofInt (i : Int) : Q := ⟨i, 0⟩

instance (n : Nat) : OfNat Q n := ⟨⟨(n : Int), 0⟩⟩

instance : Add Q :=
  ⟨fun a b => ⟨a.num * (b.den : Int) + b.num * (a.den : Int), a.den * b.den - 1⟩⟩

instance : Sub Q :=
  ⟨fun a b => ⟨a.num * (b.den : Int) - b.num * (a.den : Int), a.den * b.den - 1⟩⟩

instance : Mul Q :=
  ⟨fun a b => ⟨a.num * b.num, a.den * b.den - 1⟩⟩

/-- Division; a zero divisor yields zero (the engine never divides by zero
on reachable paths). -/
instance : Div Q :=
  ⟨fun a b =>
    if 0 < b.num then ⟨a.num * (b.den : Int), a.den * b.num.toNat - 1⟩
    else if b.num < 0 then ⟨-(a.num * (b.den : Int)), a.den * (-b.num).toNat - 1⟩
    else ⟨0, 0⟩⟩

instance : LE Q := ⟨fun a b => a.num * (b.den : Int) ≤ b.num * (a.den : Int)⟩

instance : LT Q := ⟨fun a b => a.num * (b.den : Int) < b.num * (a.den : Int)⟩

instance (a b : Q) : Decidable (a ≤ b) := Int.decLe _ _

instance (a b : Q) : Decidable (a < b) := Int.decLt _ _

/-- Python min and max of two values keep the first argument on ties. -/
instance : Min Q := ⟨fun a b => if a ≤ b then a else b⟩

instance : Max Q := ⟨fun a b => if b ≤ a then a else b⟩

lemma Q.den_pos (q : Q) : 0 < ((q.den : Nat) : Int) := by
  have : 0 < q.den := Nat.succ_pos _
  exact_mod_cast this

lemma Q.le_refl (a : Q) : a ≤ a := Int.le_refl _

lemma Q.le_of_not_lt {a b : Q} (h : ¬ a < b) : b ≤ a := Int.not_lt.mp h

lemma Q.le_of_lt {a b : Q} (h : a < b) : a ≤ b := Int.le_of_lt h

lemma Q.le_trans {a b c : Q} (h1 : a ≤ b) (h2 : b ≤ c) : a ≤ c := by
  have hb := b.den_pos
  have ha : (0 : Int) ≤ (a.den : Int) := by positivity
  have hc : (0 : Int) ≤ (c.den : Int) := by positivity
  have k1 : a.num * (b.den : Int) * (c.den : Int) ≤ b.num * (a.den : Int) * (c.den : Int) :=
    mul_le_mul_of_nonneg_right h1 hc
  have k2 : b.num * (c.den : Int) * (a.den : Int) ≤ c.num * (b.den : Int) * (a.den : Int) :=
    mul_le_mul_of_nonneg_right h2 ha
  have k3 : a.num * (c.den : Int) * (b.den : Int) ≤ c.num * (a.den : Int) * (b.den : Int) := by
    nlinarith
  exact le_of_mul_le_mul_right k3 hb

/-! ## Generic list and string helpers -/

/-- Stable descending sort by a rational key, the behaviour of Python
sorted(xs, key=..., reverse=True): elements with equal keys keep their
original relative order. -/
def insertDesc (key : α → Q) (a : α) : List α → List α
  | [] => [a]
  | b :: bs => if key b ≤ key a then a :: b :: bs else b :: insertDesc key a bs

def pySortDesc (key : α → Q) : List α → List α
  | [] => []
  | a :: as => insertDesc key a (pySortDesc key as)

/-- Association-list lookup (Python dict access by key). -/
def lookupA : List (String × α) → String → Option α
  | [], _ => none
  | (k, v) :: rest, n => if k = n then some v else lookupA rest n

/-- Replace the value stored under an existing key, keeping its position
(Python dict item assignment for a present key). -/
def replaceA : List (String × α) → String → α → List (String × α)
  | [], _, _ => []
  | (k, v) :: rest, n, c => if k = n then (k, c) :: rest else (k, v) :: replaceA rest n c

/-- Python str "last element or default" helper for folder names. -/
def lastD (l : List String) (d : String) : String :=
  match l.getLast? with
  | some s => s
  | none => d

/-- Character classes used by the embedded regular expressions (ASCII). -/
def isSepChar (c : Char) : Bool :=
  c.isWhitespace || c = '-' || c = '_' || c = '.'

def isWordChar (c : Char) : Bool :=
  c.isAlpha || c.isDigit || c = '_'

def isWordOpt : Option Char → Bool
  | none => false
  | some c => isWordChar c

/-- Substring test, Python needle in haystack (empty needle always found). -/
def listHasStart : List Char → List Char → Bool
  | [], _ => true
  | _ :: _, [] => false
  | a :: as, b :: bs => a = b && listHasStart as bs

def listInfix (n : List Char) : List Char → Bool
  | [] => n.isEmpty
  | c :: t => listHasStart n (c :: t) || listInfix n t

def isSubstr (needle hay : String) : Bool :=
  listInfix needle.data hay.data

/-- Case-insensitive literal comparison of a needle with the start of a
character list. -/
def startsWithCI : List Char → List Char → Bool
  | [], _ => true
  | _ :: _, [] => false
  | a :: as, b :: bs => a.toLower = b.toLower && startsWithCI as bs

/-- Longest common literal character run of two strings, and of a list
(os.path.commonprefix). -/
def commonStart2Aux : List Char → List Char → List Char
  | a :: as, b :: bs => if a = b then a :: commonStart2Aux as bs else []
  | _, _ => []

def commonStart2 (a b : String) : String :=
  String.mk (commonStart2Aux a.data b.data)

def commonStart : List String → String
  | [] => ""
  | x :: xs => xs.foldl commonStart2 x

/-- Python str.lower (ASCII). -/
def pyLower (s : String) : String :=
  String.mk (s.data.map Char.toLower)

/-- Python str.strip with no arguments: trim whitespace from both ends. -/
def pyStrip (s : String) : String :=
  String.mk (((s.data.dropWhile Char.isWhitespace).reverse.dropWhile Char.isWhitespace).reverse)

/-- Python str.startswith. -/
def pyStartsWith (s p : String) : Bool :=
  listHasStart p.data s.data

/-- Python str.split with a nonempty separator. The fuel argument only
drives structural recursion; every step consumes at least one character, so
the wrapper's fuel is always sufficient. -/
def pySplitGo (sep : List Char) : Nat → List Char → List Char → List (List Char)
  | _, [], acc => [acc.reverse]
  | 0, cs, acc => [acc.reverse ++ cs]
  | fuel + 1, c :: cs, acc =>
    if listHasStart sep (c :: cs) then
      acc.reverse :: pySplitGo sep fuel ((c :: cs).drop sep.length) []
    else pySplitGo sep fuel cs (c :: acc)

def pySplit (s sep : String) : List String :=
  (pySplitGo sep.data (s.length + 1) s.data []).map String.mk

/-- Python pathlib stem/suffix of a file name: split at the last dot when it
is neither the first nor the last character. -/
def lastDotIdx (cs : List Char) : Option Nat :=
  (List.range cs.length).foldl
    (fun acc i => if cs.getD i ' ' = '.' then some i else acc) none

def pyStem (name : String) : String :=
  match lastDotIdx name.data with
  | some i => if 0 < i ∧ i < name.length - 1 then String.mk (name.data.take i) else name
  | none => name

def pySuffix (name : String) : String :=
  match lastDotIdx name.data with
  | some i => if 0 < i ∧ i < name.length - 1 then String.mk (name.data.drop i) else ""
  | none => ""

/-- Python int() on a digit string. -/
def strToInt (s : String) : Int :=
  s.data.foldl (fun a c => a * 10 + ((c.toNat : Int) - 48)) 0

/-- Python s.lstrip('0') or '0' as used for track and disc numbers. -/
def lstripZeros (g : String) : String :=
  let t := String.mk (g.data.dropWhile (fun c => c = '0'))
  if t = "" then "0" else t

/-- Python round(): round half to even. With f the floor and r the
fractional remainder, compare twice the remainder against the denominator. -/
def pyRound (q : Q) : Int :=
  let d : Int := (q.den : Int)
  let f := Int.fdiv q.num d
  let r := q.num - f * d
  if 2 * r < d then f
  else if d < 2 * r then f + 1
  else if f % 2 = 0 then f else f + 1

/-- Strip the given characters from both ends (Python str.strip(chars)). -/
def stripCharsL (cs : List Char) (bad : List Char) : List Char :=
  cs.dropWhile (fun c => decide (c ∈ bad))

def stripChars (s : String) (bad : List Char) : String :=
  String.mk (((stripCharsL s.data bad).reverse.dropWhile (fun c => decide (c ∈ bad))).reverse)

/-- Collapse every maximal whitespace run to a single space,
re.sub of one-or-more whitespace with one space. -/
def collapseWsAux (prevWs : Bool) : List Char → List Char
  | [] => []
  | c :: cs =>
    if c.isWhitespace then
      if prevWs then collapseWsAux true cs else ' ' :: collapseWsAux true cs
    else c :: collapseWsAux false cs

def collapseWs (s : String) : String :=
  String.mk (collapseWsAux false s.data)

/-! ## Scanner combinators (leftmost, non-overlapping regex semantics) -/

/-- Leftmost match of a positional matcher. -/
def scanFirst (m : List Char → Option α) : List Char → Option α
  | [] => none
  | c :: cs =>
    match m (c :: cs) with
    | some a => some a
    | none => scanFirst m cs

/-- Leftmost match of a positional matcher that also sees the previous
character (for word boundaries). -/
def scanFirstB (m : Option Char → List Char → Option α) : Option Char → List Char → Option α
  | _, [] => none
  | prev, c :: cs =>
    match m prev (c :: cs) with
    | some a => some a
    | none => scanFirstB m (some c) cs

/-- All non-overlapping matches, scanning left to right and resuming after
each match (re.findall); the matcher yields the captured value and the
total match length. The fuel argument only drives structural recursion;
every step consumes at least one character, so the wrappers' fuel is always
sufficient. -/
def scanFindAllGo (m : List Char → Option (α × Nat)) : Nat → List Char → List α
  | _, [] => []
  | 0, _ => []
  | fuel + 1, c :: cs =>
    match m (c :: cs) with
    | some (a, n) => a :: scanFindAllGo m fuel (cs.drop (n - 1))
    | none => scanFindAllGo m fuel cs

def scanFindAll (m : List Char → Option (α × Nat)) (cs : List Char) : List α :=
  scanFindAllGo m (cs.length + 1) cs

/-- Delete all non-overlapping matches (re.sub with empty replacement);
the matcher yields the match length. -/
def scanRemoveAllGo (m : List Char → Option Nat) : Nat → List Char → List Char
  | _, [] => []
  | 0, cs => cs
  | fuel + 1, c :: cs =>
    match m (c :: cs) with
    | some n => scanRemoveAllGo m fuel (cs.drop (n - 1))
    | none => c :: scanRemoveAllGo m fuel cs

def scanRemoveAll (m : List Char → Option Nat) (cs : List Char) : List Char :=
  scanRemoveAllGo m (cs.length + 1) cs

/-! ## The specific regular expressions of inference.py, compiled by hand -/

/-- Embeds re.match of anchored 1-to-3-digits-only (the pattern digits
one-to-three between caret and dollar); the dollar also accepts one final
newline. -/
def isNum13 (s : String) : Bool :=
  let cs := s.data
  let cs := if cs.getLast? = some '\n' then cs.dropLast else cs
  decide (1 ≤ cs.length) && decide (cs.length ≤ 3) && cs.all (fun c => c.isDigit)

/-- Embeds re.match of anchored exactly-4-digits (used for year checks). -/
def isNum4 (s : String) : Bool :=
  let cs := s.data
  let cs := if cs.getLast? = some '\n' then cs.dropLast else cs
  decide (cs.length = 4) && cs.all (fun c => c.isDigit)

/-- Embeds the full sibling pattern: start anchor, a group of 1-3 digits, a
run of separator characters, then a nonempty remainder group (dot-plus).
With backtracking this holds iff a maximal leading digit run of length 1-3
is followed by a separator and at least one later non-newline character. -/
def leadingTrackFull (s : String) : Bool :=
  let cs := s.data
  let d := cs.takeWhile (fun c => c.isDigit)
  let rest := cs.drop d.length
  decide (1 ≤ d.length) && decide (d.length ≤ 3) &&
    (match rest with
     | [] => false
     | c0 :: tail => isSepChar c0 && tail.any (fun ch => ch ≠ '\n'))

/-- Embeds the leading track-number pattern: start anchor, a group of 1-3
digits, then one or more separator characters; yields the digit group. -/
def leadingTrackNum (s : String) : Option String :=
  let cs := s.data
  let d := cs.takeWhile (fun c => c.isDigit)
  let rest := cs.drop d.length
  if 1 ≤ d.length ∧ d.length ≤ 3 then
    match rest with
    | [] => none
    | c0 :: _ => if isSepChar c0 then some (String.mk d) else none
  else none

/-- Embeds re.sub removing the leading track-number pattern (digits then a
maximal separator run) from the start of the string. -/
def subLeadingTrack (s : String) : String :=
  match leadingTrackNum s with
  | some _ =>
    let cs := s.data
    let d := cs.takeWhile (fun c => c.isDigit)
    String.mk ((cs.drop d.length).dropWhile isSepChar)
  | none => s

/-- Track ladder pattern 2: 1-3 digits then only trailing whitespace. -/
def matchTrackOnlyNum (s : String) : Option String :=
  let cs := s.data
  let d := cs.takeWhile (fun c => c.isDigit)
  let rest := cs.drop d.length
  if 1 ≤ d.length ∧ d.length ≤ 3 ∧ rest.all (fun c => c.isWhitespace) then
    some (String.mk d)
  else none

/-- Track ladder pattern 3: an opening square bracket, 1-3 digits, a closing
square bracket, anchored at the start. -/
def matchTrackBracket (s : String) : Option String :=
  match s.data with
  | '[' :: rest =>
    let d := rest.takeWhile (fun c => c.isDigit)
    if 1 ≤ d.length ∧ d.length ≤ 3 ∧ (rest.drop d.length).head? = some ']' then
      some (String.mk d)
    else none
  | _ => none

/-- Track ladder pattern 4: the word track (case-insensitive), a run of
whitespace or underscores, then 1-3 digits (greedy: the first three digits
of the following digit run), anchored at the start. -/
def matchTrackWord (s : String) : Option String :=
  let cs := s.data
  if startsWithCI ("track".data) cs then
    let rest := (cs.drop 5).dropWhile (fun c => c.isWhitespace || c = '_')
    let d := rest.takeWhile (fun c => c.isDigit)
    if 1 ≤ d.length then some (String.mk (d.take 3)) else none
  else none

/-- Track ladder pattern 5 positional matcher: a whitespace/dash/underscore
character, a digit run of length 1-3, then another such character. -/
def isSep5 (c : Char) : Bool := c.isWhitespace || c = '-' || c = '_'

def midNumAt : List Char → Option String
  | [] => none
  | c :: rest =>
    if isSep5 c then
      let d := rest.takeWhile (fun c => c.isDigit)
      let after : Bool :=
        match (rest.drop d.length).head? with
        | some c2 => isSep5 c2
        | none => false
      if 1 ≤ d.length ∧ d.length ≤ 3 ∧ after = true then
        some (String.mk d)
      else none
    else none

def matchTrackMid (s : String) : Option String :=
  scanFirst midNumAt s.data

/-- Year alternation of the date heuristics: 1950-1999 or 2000-2029. -/
def yearDigits : List Char → Bool
  | a :: b :: c :: d :: [] =>
    (a = '1' && b = '9' && decide ('5' ≤ c) && decide (c ≤ '9') && d.isDigit) ||
    (a = '2' && b = '0' && decide ('0' ≤ c) && decide (c ≤ '2') && d.isDigit)
  | _ => false

/-- All word-bounded year matches in a string (re.findall of the year
pattern with word boundaries on both sides). The fuel argument only drives
structural recursion; the wrapper's fuel is always sufficient. -/
def scanYearsGo : Nat → Option Char → List Char → List String
  | _, _, [] => []
  | 0, _, _ => []
  | fuel + 1, prev, c :: cs =>
    let four := (c :: cs).take 4
    if (!isWordOpt prev) && yearDigits four && (!isWordOpt ((c :: cs).drop 4).head?) then
      String.mk four :: scanYearsGo fuel (some ((c :: cs).getD 3 ' ')) (cs.drop 3)
    else scanYearsGo fuel (some c) cs

def findYears (s : String) : List String :=
  scanYearsGo (s.length + 1) none s.data

/-- Embeds re.match of the year pattern against a candidate string: the
string starts with a word boundary, a year alternation, and a boundary. -/
def yearPatAtStart (s : String) : Bool :=
  yearDigits (s.data.take 4) && (!isWordOpt (s.data.drop 4).head?)

/-- Parenthesized 4-digit groups: open parenthesis, 4 digits, close. -/
def parenYearAt : List Char → Option (String × Nat)
  | '(' :: rest =>
    let d := rest.take 4
    if decide (d.length = 4) && d.all (fun c => c.isDigit) && ((rest.drop 4).head? = some ')') then
      some (String.mk d, 6)
    else none
  | _ => none

def findParenYears (s : String) : List String :=
  scanFindAll parenYearAt s.data

/-- Parenthesized / bracketed nonempty content, re.findall of an opening
delimiter, one or more non-closing characters, then the closing delimiter. -/
def parenContentAt (openC closeC : Char) : List Char → Option (String × Nat)
  | [] => none
  | c :: rest =>
    if c = openC then
      let content := rest.takeWhile (fun x => x ≠ closeC)
      if content.isEmpty then none
      else
        match (rest.drop content.length).head? with
        | some c2 => if c2 = closeC then some (String.mk content, content.length + 2) else none
        | none => none
    else none

def findParenContents (s : String) : List String :=
  scanFindAll (parenContentAt '(' ')') s.data

def findBrackContents (s : String) : List String :=
  scanFindAll (parenContentAt '[' ']') s.data

/-- Disc patterns: a word-bounded keyword (CD, Disc, Disk, case-insensitive),
an optional single whitespace, a 1-2 digit group, then a word boundary. -/
def discWordAt (word : List Char) (spaceOpt : Bool) (prev : Option Char) (cs : List Char) : Option String :=
  if (!isWordOpt prev) && startsWithCI word cs then
    let rest := cs.drop word.length
    let rest := if spaceOpt then
        match rest with
        | c :: t => if c.isWhitespace then t else rest
        | [] => rest
      else rest
    let d := rest.takeWhile (fun c => c.isDigit)
    if 1 ≤ d.length ∧ d.length ≤ 2 ∧ !isWordOpt (rest.drop d.length).head? then
      some (String.mk d)
    else none
  else none

def searchDiscWord (word : String) (spaceOpt : Bool) (s : String) : Option String :=
  scanFirstB (discWordAt word.data spaceOpt) none s.data

/-- Disc pattern: 1-2 digits inside square brackets, anywhere. -/
def brackNumAt : List Char → Option String
  | '[' :: rest =>
    let d := rest.takeWhile (fun c => c.isDigit)
    if 1 ≤ d.length ∧ d.length ≤ 2 ∧ (rest.drop d.length).head? = some ']' then
      some (String.mk d)
    else none
  | _ => none

def searchBrackNum (s : String) : Option String :=
  scanFirst brackNumAt s.data

/-! ## The title-cleaning regular expressions -/

/-- Strip one trailing audio extension (case-insensitive re.sub anchored at
the end of the string). -/
def audioExts : List String := ["mp3", "flac", "m4a", "wav", "wma", "wv"]

def stripAudioExt (t : String) : String :=
  match audioExts.find? (fun e => listHasStart ("." ++ e).data.reverse (pyLower t).data.reverse) with
  | some e => String.mk (t.data.take (t.length - (e.length + 1)))
  | none => t

/-- Length of an optional closing square bracket at a position. -/
def closeBr (cs : List Char) : Nat :=
  if cs.head? = some ']' then 1 else 0

/-- Quality pattern: optional opening bracket, 3-4 digits, the word kbps
(case-insensitive), optional closing bracket. -/
def kbpsCore (cs : List Char) (pre : Nat) : Option Nat :=
  let d := cs.takeWhile (fun c => c.isDigit)
  if (3 ≤ d.length ∧ d.length ≤ 4) ∧ startsWithCI ("kbps".data) (cs.drop d.length) then
    some (pre + d.length + 4 + closeBr (cs.drop (d.length + 4)))
  else none

def kbpsAt : List Char → Option Nat
  | '[' :: rest => kbpsCore rest 1
  | cs => kbpsCore cs 0

/-- Quality pattern: optional opening bracket, a case-insensitive literal,
optional closing bracket. -/
def brackLitCore (lit : List Char) (cs : List Char) (pre : Nat) : Option Nat :=
  if startsWithCI lit cs then some (pre + lit.length + closeBr (cs.drop lit.length))
  else none

def brackLitAt (lit : List Char) : List Char → Option Nat
  | '[' :: rest =>
    match brackLitCore lit rest 1 with
    | some n => some n
    | none => none
  | cs => brackLitCore lit cs 0

/-- Quality pattern: a required case-insensitive literal (used for the
parenthesized and bracketed Explicit markers). -/
def litAt (lit : List Char) (cs : List Char) : Option Nat :=
  if startsWithCI lit cs then some lit.length else none

/-- The clean-up filter applied to every title candidate value. -/
def clean_title (t0 : String) : String :=
  let t := stripAudioExt t0
  let t := String.mk (t.data.dropWhile (fun c => c.isDigit || isSepChar c))
  let t := collapseWs t
  let t := stripChars t [' ', '-', '_', '.']
  let t := String.mk (scanRemoveAll kbpsAt t.data)
  let t := String.mk (scanRemoveAll (brackLitAt ("320".data)) t.data)
  let t := String.mk (scanRemoveAll (brackLitAt ("flac".data)) t.data)
  let t := String.mk (scanRemoveAll (brackLitAt ("mp3".data)) t.data)
  let t := String.mk (scanRemoveAll (litAt ("(explicit)".data)) t.data)
  let t := String.mk (scanRemoveAll (litAt ("[explicit]".data)) t.data)
  pyStrip t

/-! ## Data model -/

/-- One proposed value for a metadata field: the candidate dict of the
engine, with its optional keys made explicit. -/
structure Candidate where
  value : String
  confidence : Q
  source : String
  evidence : List String
  mbid : Option String := none
  tag_count : Option Int := none
  sources : Option (List String) := none
  agreement_count : Option Nat := none
deriving DecidableEq, Repr

def mkCand (v : String) (conf : Q) (src : String) (ev : List String) : Candidate :=
  { value := v, confidence := conf, source := src, evidence := ev }

def defaultCandidate : Candidate := mkCand "" 0 "" []

/-- One entry of the filename-segment analysis. -/
structure SegmentInfo where
  parts : List String
  delimiter : String
  confidence : Q
deriving DecidableEq, Repr

/-- Result of the sibling-filename pattern analysis. -/
structure SiblingPatterns where
  common_prefixes : List (String × Nat)
  track_pattern : Option String
  disc_pattern : Option String
  common_artist : Option String
  common_album : Option String
deriving DecidableEq, Repr

/-- One entry of folder_context files: a sibling audio file. -/
structure Sibling where
  name : String
  path : String
deriving DecidableEq, Repr

structure FolderContext where
  files : List Sibling
deriving DecidableEq, Repr

/-- The existing-metadata mapping field to string (a Python dict). -/
def Metadata := List (String × String)
deriving DecidableEq

def mget (md : Metadata) (k : String) : Option String :=
  lookupA md k

def mgetD (md : Metadata) (k : String) (d : String) : String :=
  match mget md k with
  | some v => v
  | none => d

/-- Python truthiness of a dict string value: present and nonempty. -/
def mtruthy (md : Metadata) (k : String) : Bool :=
  mgetD md k "" ≠ ""

/-- A parsed file path: the slash-free component names of the containing
directory in order, and the file name. -/
structure MusicPath where
  dirs : List String
  filename : String
deriving DecidableEq, Repr

/-- The evidence state built once per inference call. -/
structure EvidenceState where
  filepath : MusicPath
  filename : String
  filename_no_ext : String
  extension : String
  folder_name : String
  parent_folder : String
  folder_parts : List String
  existing_metadata : Metadata
  filename_segments : List SegmentInfo
  sibling_patterns : SiblingPatterns
  sibling_count : Nat
deriving DecidableEq

/-! ## MusicBrainz response shapes (parsed JSON as accessed by the code) -/

structure MBTag where
  name : String
  count : Int
deriving DecidableEq, Repr

structure MBArtistEntry where
  tags : List MBTag
deriving DecidableEq, Repr

structure MBArtistCredit where
  name : String
  artist_id : Option String
deriving DecidableEq, Repr

structure MBRecRelease where
  title : String
  id : Option String
deriving DecidableEq, Repr

structure MBRecording where
  score : Int
  title : String
  rid : Option String
  artist_credit : List MBArtistCredit
  releases : List MBRecRelease
deriving DecidableEq, Repr

structure MBReleaseEntry where
  date : String
  id : Option String
deriving DecidableEq, Repr

structure MBWorkRelation where
  rtype : String
  artist_name : String
  artist_id : Option String
deriving DecidableEq, Repr

structure MBWork where
  relations : List MBWorkRelation
  disambiguation : String
deriving DecidableEq, Repr

structure RecordingsData where
  recordings : List MBRecording
deriving DecidableEq, Repr

structure ArtistsData where
  artists : List MBArtistEntry
deriving DecidableEq, Repr

structure ReleasesData where
  releases : List MBReleaseEntry
deriving DecidableEq, Repr

structure WorksData where
  works : List MBWork
deriving DecidableEq, Repr

/-- The raw value stored in the query cache. -/
inductive CachedData where
  | recs (d : RecordingsData)
  | arts (d : ArtistsData)
  | rels (d : ReleasesData)
  | wrks (d : WorksData)
deriving DecidableEq, Repr

def asRecs : CachedData → RecordingsData
  | CachedData.recs d => d
  | _ => { recordings := [] }

def asArts : CachedData → ArtistsData
  | CachedData.arts d => d
  | _ => { artists := [] }

def asRels : CachedData → ReleasesData
  | CachedData.rels d => d
  | _ => { releases := [] }

def asWrks : CachedData → WorksData
  | CachedData.wrks d => d
  | _ => { works := [] }

/-- The mutable state reachable from an infer_field call: the engine's
process-wide cache and rate-limit timestamp, plus the two caller-owned
arguments that Python passes by reference. -/
structure Heap where
  cache : List (String × CachedData × Q)
  mb_last_request : Q
  existing_metadata : Metadata
  folder_context : FolderContext
deriving DecidableEq

/-- Observable external effects of a call. -/
inductive Effect where
  | sleep (d : Q)
  | net (endpoint : String)
deriving DecidableEq, Repr

def Effect.isSleep : Effect → Bool
  | Effect.sleep _ => true
  | _ => false

def Effect.isNet : Effect → Bool
  | Effect.net _ => true
  | _ => false

/-- The network oracle: each query either returns parsed JSON or fails (any
urllib or json exception). -/
structure MBOracle where
  recQuery : String → String → Except Unit RecordingsData
  artQuery : String → Except Unit ArtistsData
  relQuery : String → String → Except Unit ReleasesData
  wrkQuery : String → Except Unit WorksData

/-! ## Configuration constants (src/config.py) -/

def INFERENCE_CACHE_DURATION : Q := 3600

def MUSICBRAINZ_RATE_LIMIT : Q := 1

def FIELD_THRESHOLDS : List (String × Q) :=
  [("artist", 70), ("album", 65), ("title", 75), ("track", 80),
   ("date", 60), ("genre", 55), ("albumartist", 65), ("disc", 75),
   ("composer", 70)]

def thresholdGet (field : String) : Q :=
  match lookupA FIELD_THRESHOLDS field with
  | some v => v
  | none => 70

/-! ## Evidence builder -/

/-- Confidence for a delimiter split (method _delimiter_confidence). -/
def delimiter_confidence (d : String) (parts : List String) : Q :=
  let c1 : Q := 50 + (if d = " - " then 30 else if d = "-" then 20 else if d = "_" then 10 else 0)
  let valid := (parts.filter (fun p => 2 ≤ (pyStrip p).length ∧ (pyStrip p).length ≤ 100)).length
  let c2 := c1 + (Q.ofNat valid / Q.ofNat parts.length) * 20
  let c3 := if 4 < parts.length then c2 - (Q.ofNat parts.length - 4) * 10 else c2
  min c3 100

/-- Filename segmentation (method _extract_filename_segments): split the
extension-free name under each delimiter, keep 2-6 part splits, add
parenthesized and bracketed substrings, sort descending by confidence. -/
def segmentDelims : List String := [" - ", "-", "_", "~", " · ", " — ", ".", " "]

def extract_filename_segments (filename : String) : List SegmentInfo :=
  let name := pyStem filename
  let base := segmentDelims.foldl
    (fun acc d =>
      let parts := pySplit name d
      if 2 ≤ parts.length ∧ parts.length ≤ 6 then
        acc ++ [{ parts := parts, delimiter := d, confidence := delimiter_confidence d parts }]
      else acc) []
  let extra := (findParenContents name ++ findBrackContents name).map
    (fun m => { parts := [m], delimiter := "parenthetical", confidence := (60 : Q) })
  pySortDesc (fun s => s.confidence) (base ++ extra)

/-- Sibling-filename pattern analysis (method _analyze_sibling_patterns). -/
def emptySiblingPatterns : SiblingPatterns :=
  { common_prefixes := [], track_pattern := none, disc_pattern := none,
    common_artist := none, common_album := none }

def analyze_sibling_patterns (siblings : List Sibling) (current : String) : SiblingPatterns :=
  if siblings.isEmpty then emptySiblingPatterns
  else
    let filenames := (siblings.filter (fun s => s.name ≠ current)).map (fun s => s.name)
    if filenames.isEmpty then emptySiblingPatterns
    else
      let pfx := commonStart filenames
      let base1 :=
        if 3 < pfx.length then
          { emptySiblingPatterns with common_prefixes := [(pfx, filenames.length)] }
        else emptySiblingPatterns
      let hits := (filenames ++ [current]).filter (fun fn => leadingTrackFull fn)
      if Q.ofNat filenames.length * mkQ 7 10 < Q.ofNat hits.length then
        { base1 with track_pattern := some "prefix_number" }
      else base1

/-- Build the evidence state (method _build_evidence_state). Python computes
folder_parts as path.parent.name.split of a slash: the split of the single
immediate-parent directory name, not of the whole directory path. -/
def build_evidence_state (path : MusicPath) (md : Metadata) (fc : FolderContext) : EvidenceState :=
  let fname := path.filename
  let folderName := lastD path.dirs ""
  { filepath := path,
    filename := fname,
    filename_no_ext := pyStem fname,
    extension := pyLower (pySuffix fname),
    folder_name := folderName,
    parent_folder := lastD path.dirs.dropLast "",
    folder_parts := pySplit folderName "/",
    existing_metadata := md,
    filename_segments := extract_filename_segments fname,
    sibling_patterns := analyze_sibling_patterns fc.files fname,
    sibling_count := fc.files.length }

/-! ## Candidate deduplication (method _deduplicate_candidates) -/

def normVal (c : Candidate) : String := pyStrip (pyLower c.value)

def dedupStep (acc : List (String × Candidate)) (c : Candidate) : List (String × Candidate) :=
  let n := normVal c
  match lookupA acc n with
  | none => acc ++ [(n, c)]
  | some c0 => if c0.confidence < c.confidence then replaceA acc n c else acc

/-- Remove duplicates by lowercased-trimmed value keeping the
highest-confidence one, then sort descending by confidence. The field
argument is unused, exactly as in the source. -/
def deduplicate_candidates (cs : List Candidate) (_field : String) : List Candidate :=
  pySortDesc (fun c => c.confidence) ((cs.foldl dedupStep []).map Prod.snd)

/-! ## Local inference: the per-field heuristics -/

/-- The candidate list built by _infer_title before its deduplication. -/
def infer_title_candidates (es : EvidenceState) : List Candidate :=
  let c1 := es.filename_segments.foldl
    (fun acc seg =>
      let parts := seg.parts
      if parts.length = 2 then
        if isNum13 (pyStrip (parts.headD "")) then
          acc ++ [mkCand (pyStrip (parts.getD 1 "")) 85 "filename_pattern" ["track_number_prefix"]]
        else
          acc ++ [mkCand (pyStrip (parts.getD 1 "")) 75 "filename_pattern" ["two_part_split"]]
      else if 3 ≤ parts.length then
        if isNum13 (pyStrip (parts.headD "")) then
          acc ++ [mkCand (pyStrip (lastD parts "")) 80 "filename_pattern" ["track_prefix_multipart"]]
        else
          acc ++ [mkCand (pyStrip (lastD parts "")) 65 "filename_pattern" ["last_segment"]]
      else acc) []
  let fc := es.filename_no_ext
  let tr := subLeadingTrack fc
  let c2 :=
    if tr ≠ fc then c1 ++ [mkCand (pyStrip tr) 70 "filename_cleaned" ["track_number_removed"]]
    else c1
  if mtruthy es.existing_metadata "artist" then
    let artist := mgetD es.existing_metadata "artist" ""
    let pats := [artist ++ " - ", artist ++ " — ", artist ++ " · ", artist ++ "_"]
    match pats.find? (fun p => pyStartsWith fc p) with
    | some p => c2 ++ [mkCand (pyStrip (fc.drop p.length)) 90 "artist_removal" ["known_artist_prefix"]]
    | none => c2
  else c2

/-- _infer_title: its own deduplication keeps, per exact cleaned value, the
first candidate in generation order (a seen-set of cleaned values), then
sorts descending by confidence. -/
def infer_title (es : EvidenceState) : List Candidate :=
  let step := (infer_title_candidates es).foldl
    (fun (st : List String × List Candidate) c =>
      let cv := clean_title c.value
      if cv ≠ "" ∧ cv ∉ st.1 then
        (st.1 ++ [cv], st.2 ++ [{ c with value := cv }])
      else st) ([], [])
  pySortDesc (fun c => c.confidence) step.2

/-- The candidate list built by _infer_artist before deduplication. -/
def infer_artist_candidates (es : EvidenceState) : List Candidate :=
  let a1 :=
    if ¬ es.folder_parts.isEmpty then
      (if 2 ≤ es.folder_parts.length then
        [mkCand (es.folder_parts.getD (es.folder_parts.length - 2) "") 80
          "folder_structure" ["parent_folder"]]
       else []) ++
      (if es.parent_folder ≠ "" then
        [mkCand es.parent_folder 75 "folder_structure" ["grandparent_folder"]]
       else [])
    else []
  let a2 := es.filename_segments.foldl
    (fun acc seg =>
      let parts := seg.parts
      if 2 ≤ parts.length then
        let fp := pyStrip (parts.headD "")
        let acc := if ¬ isNum13 fp then
            acc ++ [mkCand fp 70 "filename_pattern" ["first_segment"]]
          else acc
        if 3 ≤ parts.length ∧ isNum13 (pyStrip (parts.headD "")) then
          acc ++ [mkCand (pyStrip (parts.getD 1 "")) 75 "filename_pattern" ["middle_segment_after_track"]]
        else acc
      else acc) a1
  if mtruthy es.existing_metadata "albumartist" then
    a2 ++ [mkCand (mgetD es.existing_metadata "albumartist" "") 85
      "existing_metadata" ["albumartist_fallback"]]
  else a2

def infer_artist (es : EvidenceState) : List Candidate :=
  deduplicate_candidates (infer_artist_candidates es) "artist"

/-- Split a string at the first occurrence of a separator (Python split with
maxsplit one); only called when the separator occurs. -/
def splitOnceAux (sep : List Char) : List Char → List Char → Option (List Char × List Char)
  | _, [] => none
  | acc, c :: cs =>
    if listHasStart sep (c :: cs) then some (acc.reverse, (c :: cs).drop sep.length)
    else splitOnceAux sep (c :: acc) cs

def splitOnce (s sep : String) : String × String :=
  match splitOnceAux sep.data [] s.data with
  | some (a, b) => (String.mk a, String.mk b)
  | none => (s, "")

/-- The candidate list built by _infer_album before deduplication. -/
def infer_album_candidates (es : EvidenceState) : List Candidate :=
  let fn := es.folder_name
  let b1 :=
    if fn ≠ "" ∧ fn ≠ "." ∧ fn ≠ ".." then
      if isSubstr " - " fn then
        let pr := splitOnce fn " - "
        if mtruthy es.existing_metadata "artist" then
          if pyLower pr.1 = pyLower (mgetD es.existing_metadata "artist" "") then
            [mkCand pr.2 95 "folder_pattern" ["artist_album_folder"]]
          else
            [mkCand pr.2 80 "folder_pattern" ["two_part_folder"]]
        else
          [mkCand pr.2 80 "folder_pattern" ["two_part_folder"]]
      else
        [mkCand fn 85 "folder_name" ["direct_folder"]]
    else []
  let b2 := es.filename_segments.foldl
    (fun acc seg =>
      if 3 ≤ seg.parts.length then
        acc ++ [mkCand (pyStrip (seg.parts.getD (seg.parts.length / 2) "")) 60
          "filename_pattern" ["middle_segment"]]
      else acc) b1
  (findParenContents es.filename).foldl
    (fun acc m =>
      if ¬ isNum4 m then acc ++ [mkCand m 55 "parenthetical" ["parentheses_content"]]
      else acc) b2

def infer_album (es : EvidenceState) : List Candidate :=
  deduplicate_candidates (infer_album_candidates es) "album"

/-- _infer_track: the ordered regex ladder, the sibling-pattern extraction,
and a dedup by exact value keeping the highest confidence. -/
def trackLadder : List ((String → Option String) × Q × String) :=
  [(leadingTrackNum, 95, "pattern:^(\\d\x7b1,3\x7d)[\\s\\-_.]+"),
   (matchTrackOnlyNum, 90, "pattern:^(\\d\x7b1,3\x7d)\\s*$"),
   (matchTrackBracket, 85, "pattern:^\\[(\\d\x7b1,3\x7d)\\]"),
   (matchTrackWord, 85, "pattern:^track[\\s_]*(\\d\x7b1,3\x7d)"),
   (matchTrackMid, 70, "pattern:[\\s\\-_](\\d\x7b1,3\x7d)[\\s\\-_]")]

def infer_track (es : EvidenceState) : List Candidate :=
  let fn := es.filename_no_ext
  let c1 := trackLadder.foldl
    (fun acc p =>
      match p.1 fn with
      | some g => acc ++ [mkCand (lstripZeros g) p.2.1 "filename_pattern" [p.2.2]]
      | none => acc) []
  let c2 :=
    if es.sibling_patterns.track_pattern = some "prefix_number" then
      match leadingTrackNum fn with
      | some g => c1 ++ [mkCand (lstripZeros g) 90 "sibling_pattern" ["consistent_numbering"]]
      | none => c1
    else c1
  let dict := c2.foldl
    (fun acc c =>
      match lookupA acc c.value with
      | none => acc ++ [(c.value, c)]
      | some c0 => if c0.confidence < c.confidence then replaceA acc c.value c else acc) []
  pySortDesc (fun c => c.confidence) (dict.map Prod.snd)

/-- The validated candidate list of _infer_date before deduplication. -/
def infer_date_valid (currentYear : Int) (es : EvidenceState) : List Candidate :=
  let d1 := (findYears es.filename).map
    (fun y => mkCand y 75 "filename" ["year_in_filename"])
  let d2 := (findYears es.folder_name).map
    (fun y => mkCand y 80 "folder_name" ["year_in_folder"])
  let d3 := (findParenYears (es.filename ++ " " ++ es.folder_name)).foldl
    (fun acc y =>
      if yearPatAtStart y then acc ++ [mkCand y 85 "parenthetical" ["year_in_parentheses"]]
      else acc) []
  ((d1 ++ d2) ++ d3).filter
    (fun c => 1950 ≤ strToInt c.value ∧ strToInt c.value ≤ currentYear + 1)

def infer_date (currentYear : Int) (es : EvidenceState) : List Candidate :=
  deduplicate_candidates (infer_date_valid currentYear es) "date"

/-- _infer_genre always yields nothing locally. -/
def infer_genre (_es : EvidenceState) : List Candidate := []

/-- The candidate list built by _infer_albumartist before deduplication. -/
def infer_albumartist_candidates (es : EvidenceState) : List Candidate :=
  let a1 :=
    if mtruthy es.existing_metadata "artist" then
      [mkCand (mgetD es.existing_metadata "artist" "") 80 "existing_metadata"
        ["artist_as_albumartist"]]
    else []
  a1 ++ (infer_artist es).map
    (fun ac => mkCand ac.value (ac.confidence * mkQ 9 10) ac.source
      (ac.evidence ++ ["inferred_as_artist"]))

def infer_albumartist (es : EvidenceState) : List Candidate :=
  deduplicate_candidates (infer_albumartist_candidates es) "albumartist"

/-- The candidate list built by _infer_disc before deduplication: the regex
set run over the filename stem and the folder name. -/
def discLadder : List ((String → Option String) × Q × String) :=
  [(searchDiscWord "cd" true, 90, "pattern:\\bCD[\\s]?(\\d\x7b1,2\x7d)\\b"),
   (searchDiscWord "disc" true, 90, "pattern:\\bDisc[\\s]?(\\d\x7b1,2\x7d)\\b"),
   (searchDiscWord "disk" true, 90, "pattern:\\bDisk[\\s]?(\\d\x7b1,2\x7d)\\b"),
   (searchDiscWord "d" false, 70, "pattern:\\bD(\\d\x7b1,2\x7d)\\b"),
   (searchBrackNum, 60, "pattern:\\[(\\d\x7b1,2\x7d)\\]")]

def infer_disc_candidates (es : EvidenceState) : List Candidate :=
  [es.filename_no_ext, es.folder_name].foldl
    (fun acc text =>
      discLadder.foldl
        (fun acc p =>
          match p.1 text with
          | some g =>
            acc ++ [mkCand (lstripZeros g) p.2.1
              (if text = es.filename_no_ext then "filename" else "folder") [p.2.2]]
          | none => acc) acc) []

def infer_disc (es : EvidenceState) : List Candidate :=
  deduplicate_candidates (infer_disc_candidates es) "disc"

/-- The field-name dispatch of _perform_local_inference: the eight-entry
method table; an unknown field yields the empty list. -/
def perform_local_inference (currentYear : Int) (es : EvidenceState) (field : String) : List Candidate :=
  if field = "title" then infer_title es
  else if field = "artist" then infer_artist es
  else if field = "album" then infer_album es
  else if field = "track" then infer_track es
  else if field = "date" then infer_date currentYear es
  else if field = "genre" then infer_genre es
  else if field = "albumartist" then infer_albumartist es
  else if field = "disc" then infer_disc es
  else []

/-! ## External lookup gate (method _should_query_musicbrainz) -/

def should_query_musicbrainz (field : String) (localC : List Candidate) (md : Metadata) : Bool :=
  if field = "track" ∨ field = "disc" then false
  else
    match localC with
    | [] => true
    | c :: _ =>
      if c.confidence < 70 then true
      else if field = "genre" then mtruthy md "artist" || mtruthy md "album"
      else if field = "date" then mtruthy md "artist" && mtruthy md "album"
      else if field = "album" then mtruthy md "artist" || mtruthy md "title"
      else if field = "artist" then mtruthy md "title" || mtruthy md "album"
      else if field = "title" then mtruthy md "artist" || mtruthy md "album"
      else if field = "albumartist" then mtruthy md "album"
      else if field = "composer" then mtruthy md "title"
      else false

/-! ## MusicBrainz client: cached, TTL-gated searches -/

/-- Cache lookup returning the stored data only when the entry is younger
than the TTL (a stale entry counts as a miss but is not evicted). -/
def cacheLookupFresh (cache : List (String × CachedData × Q)) (key : String) (now : Q) : Option CachedData :=
  match lookupA cache key with
  | some (d, t) => if now - t < INFERENCE_CACHE_DURATION then some d else none
  | none => none

/-- Store under a key, replacing an existing entry in place. -/
def cacheInsert (cache : List (String × CachedData × Q)) (key : String) (d : CachedData) (now : Q) :
    List (String × CachedData × Q) :=
  match lookupA cache key with
  | some _ => replaceA cache key (d, now)
  | none => cache ++ [(key, (d, now))]

/-- Method _mb_search_recordings: check the cache, otherwise issue the
network request; a success is cached, a failure returns the empty shape and
leaves the cache untouched. -/
def mb_search_recordings (h : Heap) (now : Q) (o : MBOracle) (artist rtitle : String) :
    RecordingsData × Heap × List Effect :=
  let key := "rec:" ++ artist ++ ":" ++ rtitle
  match cacheLookupFresh h.cache key now with
  | some d => (asRecs d, h, [])
  | none =>
    match o.recQuery artist rtitle with
    | Except.ok d =>
      (d, { h with cache := cacheInsert h.cache key (CachedData.recs d) now },
        [Effect.net "recording"])
    | Except.error _ => ({ recordings := [] }, h, [Effect.net "recording"])

/-- Method _mb_search_artist. -/
def mb_search_artist (h : Heap) (now : Q) (o : MBOracle) (artist : String) :
    ArtistsData × Heap × List Effect :=
  let key := "artist:" ++ artist
  match cacheLookupFresh h.cache key now with
  | some d => (asArts d, h, [])
  | none =>
    match o.artQuery artist with
    | Except.ok d =>
      (d, { h with cache := cacheInsert h.cache key (CachedData.arts d) now },
        [Effect.net "artist"])
    | Except.error _ => ({ artists := [] }, h, [Effect.net "artist"])

/-- Method _mb_search_release. -/
def mb_search_release (h : Heap) (now : Q) (o : MBOracle) (artist album : String) :
    ReleasesData × Heap × List Effect :=
  let key := "release:" ++ artist ++ ":" ++ album
  match cacheLookupFresh h.cache key now with
  | some d => (asRels d, h, [])
  | none =>
    match o.relQuery artist album with
    | Except.ok d =>
      (d, { h with cache := cacheInsert h.cache key (CachedData.rels d) now },
        [Effect.net "release"])
    | Except.error _ => ({ releases := [] }, h, [Effect.net "release"])

/-- Method _mb_search_work. -/
def mb_search_work (h : Heap) (now : Q) (o : MBOracle) (workTitle : String) :
    WorksData × Heap × List Effect :=
  let key := "work:" ++ workTitle
  match cacheLookupFresh h.cache key now with
  | some d => (asWrks d, h, [])
  | none =>
    match o.wrkQuery workTitle with
    | Except.ok d =>
      (d, { h with cache := cacheInsert h.cache key (CachedData.wrks d) now },
        [Effect.net "work"])
    | Except.error _ => ({ works := [] }, h, [Effect.net "work"])

/-! ## Extraction of candidates from MusicBrainz responses -/

/-- Method _extract_mb_candidates: map a recording search to candidates for
the requested field. -/
def extract_mb_candidates (mb : RecordingsData) (field : String) : List Candidate :=
  (mb.recordings.take 3).foldl
    (fun acc rec =>
      let score : Q := Q.ofInt rec.score
      if field = "title" then
        acc ++ [{ value := rec.title, confidence := min score 90, source := "musicbrainz",
                  evidence := ["mb_recording"], mbid := rec.rid }]
      else if field = "artist" then
        match rec.artist_credit.head? with
        | some ac =>
          if ac.name ≠ "" then
            acc ++ [{ value := ac.name, confidence := min (score * mkQ 9 10) 85,
                      source := "musicbrainz", evidence := ["mb_artist_credit"],
                      mbid := ac.artist_id }]
          else acc
        | none => acc
      else if field = "album" then
        (rec.releases.take 2).foldl
          (fun acc rel =>
            if rel.title ≠ "" then
              acc ++ [{ value := rel.title, confidence := min (score * mkQ 8 10) 80,
                        source := "musicbrainz", evidence := ["mb_release"], mbid := rel.id }]
            else acc) acc
      else acc) []

/-- Method _extract_mb_genre_candidates: the top artist's first three tags
with positive usage count. -/
def extract_mb_genre_candidates (mb : ArtistsData) : List Candidate :=
  (mb.artists.take 1).foldl
    (fun acc a =>
      (a.tags.take 3).foldl
        (fun acc tag =>
          if 0 < tag.count then
            acc ++ [{ value := tag.name, confidence := min (60 + Q.ofInt tag.count) 80,
                      source := "musicbrainz", evidence := ["mb_artist_tag"],
                      tag_count := some tag.count }]
          else acc) acc) []

/-- Method _extract_mb_date_candidates: the 4-digit year prefix of the date
of each of the first three releases. -/
def extract_mb_date_candidates (mb : ReleasesData) : List Candidate :=
  (mb.releases.take 3).foldl
    (fun acc rel =>
      if rel.date ≠ "" then
        let four := rel.date.data.take 4
        if four.length = 4 ∧ four.all (fun c => c.isDigit) then
          acc ++ [{ value := String.mk four, confidence := 85, source := "musicbrainz",
                    evidence := ["mb_release_date"], mbid := rel.id }]
        else acc
      else acc) []

/-- The disambiguation pattern of _extract_mb_composer_candidates: the word
by, a space, an uppercase letter, then one or more letters, whitespace or
dots; yields the stripped captured group. -/
def byComposerAt : List Char → Option String
  | 'b' :: 'y' :: ' ' :: c :: rest =>
    if c.isUpper then
      let run := rest.takeWhile (fun x => x.isAlpha || x.isWhitespace || x = '.')
      if 1 ≤ run.length then some (pyStrip (String.mk (c :: run))) else none
    else none
  | _ => none

/-- Method _extract_mb_composer_candidates: for each of the first three
works take the first composer relation with a nonempty artist name; the
disambiguation fallback fires only while the accumulated list is empty. -/
def extract_mb_composer_candidates (mb : WorksData) : List Candidate :=
  (mb.works.take 3).foldl
    (fun acc w =>
      let acc :=
        match w.relations.find? (fun r => r.rtype = "composer" && r.artist_name ≠ "") with
        | some r =>
          acc ++ [{ value := r.artist_name, confidence := 90, source := "musicbrainz",
                    evidence := ["mb_work_composer"], mbid := r.artist_id }]
        | none => acc
      if acc.isEmpty ∧ w.disambiguation ≠ "" then
        match scanFirst byComposerAt w.disambiguation.data with
        | some name =>
          acc ++ [{ value := name, confidence := 70, source := "musicbrainz",
                    evidence := ["mb_work_disambiguation"] }]
        | none => acc
      else acc) []

/-- Method _extract_work_from_filename. -/
def extract_work_from_filename (es : EvidenceState) : List String :=
  es.filename_segments.foldl
    (fun acc seg =>
      if 2 ≤ seg.parts.length then acc ++ [pyStrip (lastD seg.parts "")] else acc) []

/-! ## Method _query_musicbrainz: rate limiting, field dispatch -/

def query_mb_recording_branch (h1 : Heap) (now1 : Q) (o : MBOracle) (es : EvidenceState)
    (field : String) (localC : List Candidate) : List Candidate × Heap × List Effect :=
  if mtruthy es.existing_metadata "artist" ∨ (¬ localC.isEmpty ∧ field = "artist") then
    let artist := mgetD es.existing_metadata "artist" ""
    let artist :=
      if artist = "" ∧ field = "artist" ∧ ¬ localC.isEmpty then
        (localC.headD defaultCandidate).value
      else artist
    let th := mgetD es.existing_metadata "title" ""
    let th :=
      if th = "" ∧ field = "title" ∧ ¬ localC.isEmpty then
        (localC.headD defaultCandidate).value
      else if th = "" then
        match infer_title es with
        | [] => th
        | c :: _ => c.value
      else th
    if artist ≠ "" ∧ th ≠ "" then
      let r := mb_search_recordings h1 now1 o artist th
      (extract_mb_candidates r.1 field, r.2.1, r.2.2)
    else ([], h1, [])
  else ([], h1, [])

def query_mb_composer_branch (h1 : Heap) (now1 : Q) (o : MBOracle) (es : EvidenceState) :
    List Candidate × Heap × List Effect :=
  let wh := mgetD es.existing_metadata "title" ""
  let wh :=
    if wh = "" then
      match extract_work_from_filename es with
      | [] => wh
      | w :: _ => w
    else wh
  if wh ≠ "" then
    let r := mb_search_work h1 now1 o wh
    (extract_mb_composer_candidates r.1, r.2.1, r.2.2)
  else ([], h1, [])

def query_mb_genre_branch (h1 : Heap) (now1 : Q) (o : MBOracle) (es : EvidenceState) :
    List Candidate × Heap × List Effect :=
  if mtruthy es.existing_metadata "artist" then
    let r := mb_search_artist h1 now1 o (mgetD es.existing_metadata "artist" "")
    (extract_mb_genre_candidates r.1, r.2.1, r.2.2)
  else ([], h1, [])

def query_mb_date_branch (h1 : Heap) (now1 : Q) (o : MBOracle) (es : EvidenceState) :
    List Candidate × Heap × List Effect :=
  if mtruthy es.existing_metadata "artist" ∧ mtruthy es.existing_metadata "album" then
    let r := mb_search_release h1 now1 o (mgetD es.existing_metadata "artist" "")
      (mgetD es.existing_metadata "album" "")
    (extract_mb_date_candidates r.1, r.2.1, r.2.2)
  else ([], h1, [])

/-- Remaining sleep demanded by the rate limiter at the start of every
external query. -/
def rateSleep (h : Heap) (now : Q) : Q :=
  if now - h.mb_last_request < MUSICBRAINZ_RATE_LIMIT then
    MUSICBRAINZ_RATE_LIMIT - (now - h.mb_last_request)
  else 0

/-- The wall clock after the rate-limiter sleep. -/
def rateNow (h : Heap) (now : Q) : Q := now + rateSleep h now

/-- The sleep effect emitted by the rate limiter, when any. -/
def rateEffs (h : Heap) (now : Q) : List Effect :=
  if now - h.mb_last_request < MUSICBRAINZ_RATE_LIMIT then
    [Effect.sleep (MUSICBRAINZ_RATE_LIMIT - (now - h.mb_last_request))]
  else []

/-- The heap after the rate limiter stamped the last-request time. -/
def rateStamp (h : Heap) (now : Q) : Heap :=
  { h with mb_last_request := rateNow h now }

/-- The rate-limited external query: sleep out the remainder of the minimum
interval and stamp the last-request time before any cache check, then
dispatch on the field. Exceptions inside the dispatch are swallowed in the
source; in the embedding every branch is total. -/
def query_musicbrainz (h : Heap) (now : Q) (o : MBOracle) (es : EvidenceState)
    (field : String) (localC : List Candidate) : List Candidate × Heap × Q × List Effect :=
  let h1 := rateStamp h now
  let now1 := rateNow h now
  let br :=
    if field = "title" ∨ field = "artist" ∨ field = "album" then
      query_mb_recording_branch h1 now1 o es field localC
    else if field = "composer" then
      query_mb_composer_branch h1 now1 o es
    else if field = "genre" then
      query_mb_genre_branch h1 now1 o es
    else if field = "date" then
      query_mb_date_branch h1 now1 o es
    else ([], h1, [])
  (br.1, br.2.1, now1, rateEffs h now ++ br.2.2)

/-! ## Synthesis (method _synthesize_candidates) -/

/-- Group candidates by lowercased-trimmed value, keys in first-touch order,
members in arrival order (a defaultdict of lists). -/
def groupByNormStep (acc : List (String × List Candidate)) (c : Candidate) :
    List (String × List Candidate) :=
  let n := normVal c
  match lookupA acc n with
  | some g => replaceA acc n (g ++ [c])
  | none => acc ++ [(n, [c])]

def groupByNorm (cs : List Candidate) : List (String × List Candidate) :=
  cs.foldl groupByNormStep []

/-- First-occurrence deduplication of source labels (the Python set of
sources, with a deterministic order; only membership is ever observed). -/
def dedupFirstGo (seen : List String) : List String → List String
  | [] => []
  | s :: rest =>
    if s ∈ seen then dedupFirstGo seen rest
    else s :: dedupFirstGo (s :: seen) rest

def dedupFirst (l : List String) : List String := dedupFirstGo [] l

def sourceSet (g : List Candidate) : List String :=
  dedupFirst (g.map (fun c => c.source))

def maxConf (g : List Candidate) : Q :=
  match g with
  | [] => 0
  | c :: rest => rest.foldl (fun m c2 => max m c2.confidence) c.confidence

/-- Synthesis: singleton groups pass through, larger groups become one
consensus candidate; the boost is 15 only when the literal source label
local and the label musicbrainz both occur in the group. The evidence-state
and field arguments are unused, exactly as in the source. -/
def synthesize_candidates (localC mb : List Candidate) (_es : EvidenceState) (_field : String) :
    List Candidate :=
  let groups := groupByNorm (localC ++ mb)
  groups.map
    (fun g =>
      if 1 < g.2.length then
        let sources := sourceSet g.2
        let boost : Q :=
          if "local" ∈ sources ∧ "musicbrainz" ∈ sources then 15 else 5
        { value := (g.2.headD defaultCandidate).value,
          confidence := min (maxConf g.2 + boost) 95,
          source := "consensus",
          evidence := ["multiple_sources_agree"],
          sources := some sources,
          agreement_count := some g.2.length }
      else g.2.headD defaultCandidate)

/-! ## Final scoring (method _calculate_final_scores) -/

def calc_final_one (es : EvidenceState) (field : String) (c : Candidate) : Candidate :=
  let conf := c.confidence
  let vl := pyLower c.value
  let appearances : Nat :=
    (if isSubstr vl (pyLower es.filename) then 1 else 0) +
    (if isSubstr vl (pyLower es.folder_name) then 1 else 0) +
    (if es.parent_folder ≠ "" ∧ isSubstr vl (pyLower es.parent_folder) then 1 else 0)
  let conf := if 1 < appearances then min (conf + Q.ofNat appearances * 5) 100 else conf
  let conf :=
    if field = "artist" ∧ mtruthy es.existing_metadata "albumartist" ∧
        vl = pyLower (mgetD es.existing_metadata "albumartist" "") then
      min (conf + 10) 100
    else conf
  { c with confidence := Q.ofInt (pyRound conf) }

def calculate_final_scores (cs : List Candidate) (es : EvidenceState) (field : String) :
    List Candidate :=
  pySortDesc (fun c => c.confidence) (cs.map (calc_final_one es field))

/-! ## The entry point (method infer_field) -/

structure InferOut where
  candidates : List Candidate
  heap : Heap
  now : Q
  effects : List Effect

def infer_field (h : Heap) (now : Q) (currentYear : Int) (o : MBOracle)
    (path : MusicPath) (field : String) : InferOut :=
  let es := build_evidence_state path h.existing_metadata h.folder_context
  let localC := perform_local_inference currentYear es field
  let q :=
    if should_query_musicbrainz field localC h.existing_metadata then
      query_musicbrainz h now o es field localC
    else ([], h, now, [])
  let alls := synthesize_candidates localC q.1 es field
  let finals := calculate_final_scores alls es field
  let threshold := thresholdGet field / 2
  { candidates := (finals.filter (fun c => threshold ≤ c.confidence)).take 5,
    heap := q.2.1, now := q.2.2.1, effects := q.2.2.2 }

/-! ## Spec-side definition for the amended external-lookup gate -/

/-- The amended gate, written from the spec sentence extended with the
branches the spec omitted: never query for track or disc; always query with
no local candidates; always query when the top local confidence is below
70; genre needs artist or album; date needs artist and album; album needs
artist or title; artist needs title or album; title needs artist or album;
albumartist needs album; composer needs title; otherwise no query. -/
def shouldQuerySpecAmended (field : String) (lc : List Candidate) (md : Metadata) : Bool :=
  if field ∈ ["track", "disc"] then false
  else if lc.isEmpty then true
  else if (lc.headD defaultCandidate).confidence < 70 then true
  else if field = "genre" then mtruthy md "artist" || mtruthy md "album"
  else if field = "date" then mtruthy md "artist" && mtruthy md "album"
  else if field = "album" then mtruthy md "artist" || mtruthy md "title"
  else if field = "artist" then mtruthy md "title" || mtruthy md "album"
  else if field = "title" then mtruthy md "artist" || mtruthy md "album"
  else if field = "albumartist" then mtruthy md "album"
  else if field = "composer" then mtruthy md "title"
  else false

/-! ## Concrete fixtures used by the closed theorems -/

/-- An oracle on which every network request fails. -/
def failOracle : MBOracle :=
  { recQuery := fun _ _ => Except.error (),
    artQuery := fun _ => Except.error (),
    relQuery := fun _ _ => Except.error (),
    wrkQuery := fun _ => Except.error () }

/-- A neutral evidence state (synthesis ignores it, the source keeps the
parameter). -/
def esNeutral : EvidenceState :=
  build_evidence_state ⟨["m"], "x.mp3"⟩ [] ⟨[]⟩

/-- C1 fixture: a local folder-name candidate and an external candidate
agreeing on the same normalized value. -/
def c1LocalCand : Candidate := mkCand "Abbey Road" 80 "folder_name" ["direct_folder"]

def c1MbCand : Candidate := mkCand "abbey road" 70 "musicbrainz" ["mb_release"]

/-- C4 fixture: a file under a music/Artist/Album directory layout. -/
def esArtistAlbum : EvidenceState :=
  build_evidence_state ⟨["music", "Artist", "Album"], "01 - Song.mp3"⟩ [] ⟨[]⟩

/-- C5 fixture: a heap whose cache already holds a fresh entry for the
recording query of artist A and title T, with the last external request
half a second ago. -/
def h5 : Heap :=
  { cache := [("rec:A:T", (CachedData.recs { recordings := [] }, 100))],
    mb_last_request := mkQ 199 2,
    existing_metadata := [("artist", "A"), ("title", "T")],
    folder_context := ⟨[]⟩ }

def es5 : EvidenceState :=
  build_evidence_state ⟨["m"], "x.mp3"⟩ h5.existing_metadata h5.folder_context

/-- C6 fixture: two title strategies produce the same cleaned value with
different confidences. -/
def esC6 : EvidenceState :=
  build_evidence_state ⟨["m"], "Artist_Song.mp3"⟩ [("artist", "Artist")] ⟨[]⟩

/-- An empty-state heap used by witnesses. -/
def hEmpty : Heap :=
  { cache := [], mb_last_request := 0, existing_metadata := [], folder_context := ⟨[]⟩ }

/-- C6 witness fixture: two candidates sharing one normalized value. -/
def cs6 : List Candidate := [mkCand "a" 50 "s1" [], mkCand "A " 60 "s2" []]

/-- The field set of the local dispatch table, and the set additionally
handled by the external-query dispatch. -/
def eightFields : List String :=
  ["title", "artist", "album", "track", "date", "genre", "albumartist", "disc"]

def nineFields : List String := eightFields ++ ["composer"]

/-! ## Helper lemmas -/

lemma mem_insertDesc {key : α → Q} {a b : α} {l : List α} :
    b ∈ insertDesc key a l ↔ b = a ∨ b ∈ l := by
  induction l with
  | nil => simp [insertDesc]
  | cons c cs ih =>
    simp only [insertDesc]
    split_ifs with hc
    · simp
    · simp only [List.mem_cons, ih]
      tauto

lemma mem_pySortDesc {key : α → Q} {b : α} {l : List α} :
    b ∈ pySortDesc key l ↔ b ∈ l := by
  induction l with
  | nil => simp [pySortDesc]
  | cons c cs ih => simp [pySortDesc, mem_insertDesc, ih]

/-- Preservation of the caller-owned heap fields by the four search
functions: only the cache may change. -/
lemma mb_search_recordings_pres (h : Heap) (now : Q) (o : MBOracle) (a t : String) :
    ((mb_search_recordings h now o a t).2.1).existing_metadata = h.existing_metadata ∧
    ((mb_search_recordings h now o a t).2.1).folder_context = h.folder_context ∧
    ((mb_search_recordings h now o a t).2.1).mb_last_request = h.mb_last_request := by
  simp only [mb_search_recordings]
  split
  · exact ⟨rfl, rfl, rfl⟩
  · split <;> exact ⟨rfl, rfl, rfl⟩

lemma mb_search_artist_pres (h : Heap) (now : Q) (o : MBOracle) (a : String) :
    ((mb_search_artist h now o a).2.1).existing_metadata = h.existing_metadata ∧
    ((mb_search_artist h now o a).2.1).folder_context = h.folder_context ∧
    ((mb_search_artist h now o a).2.1).mb_last_request = h.mb_last_request := by
  simp only [mb_search_artist]
  split
  · exact ⟨rfl, rfl, rfl⟩
  · split <;> exact ⟨rfl, rfl, rfl⟩

lemma mb_search_release_pres (h : Heap) (now : Q) (o : MBOracle) (a b : String) :
    ((mb_search_release h now o a b).2.1).existing_metadata = h.existing_metadata ∧
    ((mb_search_release h now o a b).2.1).folder_context = h.folder_context ∧
    ((mb_search_release h now o a b).2.1).mb_last_request = h.mb_last_request := by
  simp only [mb_search_release]
  split
  · exact ⟨rfl, rfl, rfl⟩
  · split <;> exact ⟨rfl, rfl, rfl⟩

lemma mb_search_work_pres (h : Heap) (now : Q) (o : MBOracle) (w : String) :
    ((mb_search_work h now o w).2.1).existing_metadata = h.existing_metadata ∧
    ((mb_search_work h now o w).2.1).folder_context = h.folder_context ∧
    ((mb_search_work h now o w).2.1).mb_last_request = h.mb_last_request := by
  simp only [mb_search_work]
  split
  · exact ⟨rfl, rfl, rfl⟩
  · split <;> exact ⟨rfl, rfl, rfl⟩

lemma query_mb_recording_branch_pres (h1 : Heap) (now1 : Q) (o : MBOracle)
    (es : EvidenceState) (field : String) (lc : List Candidate) :
    ((query_mb_recording_branch h1 now1 o es field lc).2.1).existing_metadata = h1.existing_metadata ∧
    ((query_mb_recording_branch h1 now1 o es field lc).2.1).folder_context = h1.folder_context ∧
    ((query_mb_recording_branch h1 now1 o es field lc).2.1).mb_last_request = h1.mb_last_request := by
  simp only [query_mb_recording_branch]
  split_ifs <;> first
    | exact ⟨rfl, rfl, rfl⟩
    | exact mb_search_recordings_pres _ _ _ _ _

lemma query_mb_composer_branch_pres (h1 : Heap) (now1 : Q) (o : MBOracle) (es : EvidenceState) :
    ((query_mb_composer_branch h1 now1 o es).2.1).existing_metadata = h1.existing_metadata ∧
    ((query_mb_composer_branch h1 now1 o es).2.1).folder_context = h1.folder_context ∧
    ((query_mb_composer_branch h1 now1 o es).2.1).mb_last_request = h1.mb_last_request := by
  simp only [query_mb_composer_branch]
  split_ifs <;> first
    | exact ⟨rfl, rfl, rfl⟩
    | exact mb_search_work_pres _ _ _ _

lemma query_mb_genre_branch_pres (h1 : Heap) (now1 : Q) (o : MBOracle) (es : EvidenceState) :
    ((query_mb_genre_branch h1 now1 o es).2.1).existing_metadata = h1.existing_metadata ∧
    ((query_mb_genre_branch h1 now1 o es).2.1).folder_context = h1.folder_context ∧
    ((query_mb_genre_branch h1 now1 o es).2.1).mb_last_request = h1.mb_last_request := by
  simp only [query_mb_genre_branch]
  split_ifs <;> first
    | exact ⟨rfl, rfl, rfl⟩
    | exact mb_search_artist_pres _ _ _ _

lemma query_mb_date_branch_pres (h1 : Heap) (now1 : Q) (o : MBOracle) (es : EvidenceState) :
    ((query_mb_date_branch h1 now1 o es).2.1).existing_metadata = h1.existing_metadata ∧
    ((query_mb_date_branch h1 now1 o es).2.1).folder_context = h1.folder_context ∧
    ((query_mb_date_branch h1 now1 o es).2.1).mb_last_request = h1.mb_last_request := by
  simp only [query_mb_date_branch]
  split_ifs <;> first
    | exact ⟨rfl, rfl, rfl⟩
    | exact mb_search_release_pres _ _ _ _ _

/-- query_musicbrainz preserves the caller-owned heap fields and always
stamps the last-request time, cache hit or not. -/
lemma query_musicbrainz_pres (h : Heap) (now : Q) (o : MBOracle) (es : EvidenceState)
    (field : String) (lc : List Candidate) :
    ((query_musicbrainz h now o es field lc).2.1).existing_metadata = h.existing_metadata ∧
    ((query_musicbrainz h now o es field lc).2.1).folder_context = h.folder_context ∧
    ((query_musicbrainz h now o es field lc).2.1).mb_last_request = rateNow h now := by
  simp only [query_musicbrainz]
  split_ifs
  · exact query_mb_recording_branch_pres (rateStamp h now) (rateNow h now) o es field lc
  · exact query_mb_composer_branch_pres (rateStamp h now) (rateNow h now) o es
  · exact query_mb_genre_branch_pres (rateStamp h now) (rateNow h now) o es
  · exact query_mb_date_branch_pres (rateStamp h now) (rateNow h now) o es
  · exact ⟨rfl, rfl, rfl⟩

/-- Claim C9 theorem below relies on this: the evidence state copies the
metadata reference unchanged. -/
lemma bes_em (p : MusicPath) (md : Metadata) (fc : FolderContext) :
    (build_evidence_state p md fc).existing_metadata = md := rfl

/-! ## Claim theorems -/

/-- Claim C3 (confirmed): for every field and every well-typed input, every
candidate returned by infer_field has confidence at least half the field
threshold (70 when the field is absent from the table), and the returned
list has at most 5 entries. -/
theorem c3_threshold_law (h : Heap) (now : Q) (cy : Int) (o : MBOracle)
    (path : MusicPath) (field : String) :
    ((infer_field h now cy o path field).candidates.all
      (fun c => thresholdGet field / 2 ≤ c.confidence)) = true ∧
    (infer_field h now cy o path field).candidates.length ≤ 5 := by
  constructor
  · rw [List.all_eq_true]
    intro c hc
    simp only [infer_field] at hc
    have h1 := List.mem_of_mem_take hc
    exact (List.mem_filter.mp h1).2
  · simp only [infer_field]
    exact List.length_take_le _ _

/-! ## Association-list lemmas for the deduplication proof -/

lemma lookupA_none_forall {α : Type} {acc : List (String × α)} {n : String}
    (h : lookupA acc n = none) : ∀ p ∈ acc, p.1 ≠ n := by
  induction acc with
  | nil => intro p hp; cases hp
  | cons kv rest ih =>
    obtain ⟨k, v⟩ := kv
    simp only [lookupA] at h
    split_ifs at h with hk
    intro p hp
    rcases List.mem_cons.mp hp with hph | hpr
    · subst hph; exact hk
    · exact ih h p hpr

lemma lookupA_some_mem {α : Type} {acc : List (String × α)} {n : String} {v : α}
    (h : lookupA acc n = some v) : (n, v) ∈ acc := by
  induction acc with
  | nil => exact Option.noConfusion h
  | cons kv rest ih =>
    obtain ⟨k, w⟩ := kv
    simp only [lookupA] at h
    split_ifs at h with hk
    · injection h with hv
      subst hv
      subst hk
      exact List.mem_cons_self _ _
    · exact List.mem_cons_of_mem _ (ih h)

lemma replaceA_keys {α : Type} (acc : List (String × α)) (n : String) (v : α) :
    (replaceA acc n v).map Prod.fst = acc.map Prod.fst := by
  induction acc with
  | nil => rfl
  | cons kv rest ih =>
    obtain ⟨k, w⟩ := kv
    simp only [replaceA]
    split_ifs with hk
    · simp
    · simp [ih]

lemma mem_replaceA_src {α : Type} {acc : List (String × α)} {n : String} {v : α}
    (hnd : (acc.map Prod.fst).Nodup) :
    ∀ p ∈ replaceA acc n v, p = (n, v) ∨ (p ∈ acc ∧ p.1 ≠ n) := by
  induction acc with
  | nil => intro p hp; cases hp
  | cons kv rest ih =>
    obtain ⟨k, w⟩ := kv
    simp only [List.map_cons, List.nodup_cons] at hnd
    obtain ⟨hk1, hk2⟩ := hnd
    intro p hp
    simp only [replaceA] at hp
    split_ifs at hp with hk
    · subst hk
      rcases List.mem_cons.mp hp with hph | hpr
      · exact Or.inl hph
      · refine Or.inr ⟨List.mem_cons_of_mem _ hpr, ?_⟩
        intro hpk
        exact hk1 (hpk ▸ List.mem_map.mpr ⟨p, hpr, rfl⟩)
    · rcases List.mem_cons.mp hp with hph | hpr
      · subst hph; exact Or.inr ⟨List.mem_cons_self _ _, hk⟩
      · rcases ih hk2 p hpr with h | ⟨h1, h2⟩
        · exact Or.inl h
        · exact Or.inr ⟨List.mem_cons_of_mem _ h1, h2⟩

lemma mem_replaceA_of {α : Type} {acc : List (String × α)} {p : String × α} {n : String}
    {v : α} (hp : p ∈ acc) (hne : p.1 ≠ n) : p ∈ replaceA acc n v := by
  induction acc with
  | nil => cases hp
  | cons kv rest ih =>
    obtain ⟨k, w⟩ := kv
    simp only [replaceA]
    split_ifs with hk
    · rcases List.mem_cons.mp hp with hph | hpr
      · subst hph
        exact absurd hk hne
      · exact List.mem_cons_of_mem _ hpr
    · rcases List.mem_cons.mp hp with hph | hpr
      · subst hph; exact List.mem_cons_self _ _
      · exact List.mem_cons_of_mem _ (ih hpr)

lemma mem_replaceA_self {α : Type} {acc : List (String × α)} {n : String} {v0 : α}
    (h : lookupA acc n = some v0) (v : α) : (n, v) ∈ replaceA acc n v := by
  induction acc with
  | nil => exact Option.noConfusion h
  | cons kv rest ih =>
    obtain ⟨k, w⟩ := kv
    simp only [lookupA] at h
    simp only [replaceA]
    split_ifs with hk
    · subst hk; exact List.mem_cons_self _ _
    · rw [if_neg hk] at h
      exact List.mem_cons_of_mem _ (ih h)

lemma nodup_key_eq {α : Type} {acc : List (String × α)} (hnd : (acc.map Prod.fst).Nodup)
    {p q : String × α} (hp : p ∈ acc) (hq : q ∈ acc) (hpq : p.1 = q.1) : p = q := by
  induction acc with
  | nil => cases hp
  | cons kv rest ih =>
    simp only [List.map_cons, List.nodup_cons] at hnd
    obtain ⟨hk1, hk2⟩ := hnd
    rcases List.mem_cons.mp hp with hph | hpr <;> rcases List.mem_cons.mp hq with hqh | hqr
    · rw [hph, hqh]
    · subst hph
      exact absurd (hpq ▸ List.mem_map.mpr ⟨q, hqr, rfl⟩) hk1
    · subst hqh
      exact absurd (hpq ▸ List.mem_map.mpr ⟨p, hpr, rfl⟩) hk1
    · exact ih hk2 hpr hqr

/-- One deduplication step preserves the invariant: keys are the normalized
values, each stored candidate comes from the processed input, and it
dominates every processed candidate with its normalized value. -/
lemma dedup_step_ok (done : List Candidate) (acc : List (String × Candidate)) (c : Candidate)
    (h1 : ∀ p ∈ acc, p.1 = normVal p.2 ∧ p.2 ∈ done ∧
        ∀ c' ∈ done, normVal c' = p.1 → c'.confidence ≤ p.2.confidence)
    (h2 : ∀ c' ∈ done, ∃ p ∈ acc, p.1 = normVal c')
    (h3 : (acc.map Prod.fst).Nodup) :
    (∀ p ∈ dedupStep acc c, p.1 = normVal p.2 ∧ p.2 ∈ done ++ [c] ∧
        ∀ c' ∈ done ++ [c], normVal c' = p.1 → c'.confidence ≤ p.2.confidence) ∧
    (∀ c' ∈ done ++ [c], ∃ p ∈ dedupStep acc c, p.1 = normVal c') ∧
    (((dedupStep acc c).map Prod.fst).Nodup) := by
  cases hl : lookupA acc (normVal c) with
  | none =>
    simp only [dedupStep, hl]
    refine ⟨?_, ?_, ?_⟩
    · intro p hp
      rcases List.mem_append.mp hp with hpa | hpn
      · obtain ⟨e1, e2, e3⟩ := h1 p hpa
        refine ⟨e1, List.mem_append_left _ e2, ?_⟩
        intro c' hc' hn
        rcases List.mem_append.mp hc' with hcd | hcc
        · exact e3 c' hcd hn
        · have hne := lookupA_none_forall hl p hpa
          simp only [List.mem_singleton] at hcc
          exact absurd (by rw [← hcc]; exact hn.symm) hne
      · simp only [List.mem_singleton] at hpn
        subst hpn
        refine ⟨rfl, List.mem_append_right _ (by simp), ?_⟩
        intro c' hc' hn
        rcases List.mem_append.mp hc' with hcd | hcc
        · obtain ⟨q, hq, hqk⟩ := h2 c' hcd
          have hne := lookupA_none_forall hl q hq
          exact absurd (hqk.trans hn) hne
        · simp only [List.mem_singleton] at hcc
          subst hcc
          exact Q.le_refl _
    · intro c' hc'
      rcases List.mem_append.mp hc' with hcd | hcc
      · obtain ⟨q, hq, hqk⟩ := h2 c' hcd
        exact ⟨q, List.mem_append_left _ hq, hqk⟩
      · simp only [List.mem_singleton] at hcc
        exact ⟨(normVal c, c), List.mem_append_right _ (by simp), by rw [hcc]⟩
    · rw [List.map_append]
      rw [List.nodup_append]
      refine ⟨h3, List.nodup_singleton _, ?_⟩
      intro a ha hb
      simp only [List.map_cons, List.map_nil, List.mem_singleton] at hb
      subst hb
      obtain ⟨p, hp, hpk⟩ := List.mem_map.mp ha
      exact lookupA_none_forall hl p hp hpk
  | some c0 =>
    simp only [dedupStep, hl]
    have hc0 := lookupA_some_mem hl
    obtain ⟨e1, e2, e3⟩ := h1 _ hc0
    split_ifs with hlt
    · refine ⟨?_, ?_, ?_⟩
      · intro p hp
        rcases mem_replaceA_src h3 p hp with hpn | ⟨hpa, hpne⟩
        · subst hpn
          refine ⟨rfl, List.mem_append_right _ (by simp), ?_⟩
          intro c' hc' hn
          rcases List.mem_append.mp hc' with hcd | hcc
          · exact Q.le_trans (e3 c' hcd hn) (Q.le_of_lt hlt)
          · simp only [List.mem_singleton] at hcc
            subst hcc
            exact Q.le_refl _
        · obtain ⟨e1', e2', e3'⟩ := h1 p hpa
          refine ⟨e1', List.mem_append_left _ e2', ?_⟩
          intro c' hc' hn
          rcases List.mem_append.mp hc' with hcd | hcc
          · exact e3' c' hcd hn
          · simp only [List.mem_singleton] at hcc
            exact absurd (by rw [← hcc]; exact hn.symm) hpne
      · intro c' hc'
        rcases List.mem_append.mp hc' with hcd | hcc
        · obtain ⟨q, hq, hqk⟩ := h2 c' hcd
          by_cases hqn : q.1 = normVal c
          · exact ⟨(normVal c, c), mem_replaceA_self hl c, hqn ▸ hqk⟩
          · exact ⟨q, mem_replaceA_of hq hqn, hqk⟩
        · simp only [List.mem_singleton] at hcc
          exact ⟨(normVal c, c), mem_replaceA_self hl c, by rw [hcc]⟩
      · rw [replaceA_keys]
        exact h3
    · have hle : c.confidence ≤ c0.confidence := Q.le_of_not_lt hlt
      refine ⟨?_, ?_, h3⟩
      · intro p hp
        obtain ⟨e1', e2', e3'⟩ := h1 p hp
        refine ⟨e1', List.mem_append_left _ e2', ?_⟩
        intro c' hc' hn
        rcases List.mem_append.mp hc' with hcd | hcc
        · exact e3' c' hcd hn
        · simp only [List.mem_singleton] at hcc
          subst hcc
          have hpq := nodup_key_eq h3 hp hc0 hn.symm
          rw [hpq]
          exact hle
      · intro c' hc'
        rcases List.mem_append.mp hc' with hcd | hcc
        · obtain ⟨q, hq, hqk⟩ := h2 c' hcd
          exact ⟨q, hq, hqk⟩
        · simp only [List.mem_singleton] at hcc
          exact ⟨(normVal c, c0), hc0, by rw [hcc]⟩

/-- The fold of deduplication steps keeps the invariant over the whole
input. -/
lemma dedup_fold_ok (cs : List Candidate) :
    ∀ (done : List Candidate) (acc : List (String × Candidate)),
    (∀ p ∈ acc, p.1 = normVal p.2 ∧ p.2 ∈ done ∧
        ∀ c' ∈ done, normVal c' = p.1 → c'.confidence ≤ p.2.confidence) →
    (∀ c' ∈ done, ∃ p ∈ acc, p.1 = normVal c') →
    ((acc.map Prod.fst).Nodup) →
    (∀ p ∈ cs.foldl dedupStep acc, p.1 = normVal p.2 ∧ p.2 ∈ done ++ cs ∧
        ∀ c' ∈ done ++ cs, normVal c' = p.1 → c'.confidence ≤ p.2.confidence) := by
  induction cs with
  | nil =>
    intro done acc h1 h2 h3
    simpa using h1
  | cons c rest ih =>
    intro done acc h1 h2 h3
    obtain ⟨s1, s2, s3⟩ := dedup_step_ok done acc c h1 h2 h3
    have hres := ih (done ++ [c]) (dedupStep acc c) s1 s2 s3
    have heq : done ++ c :: rest = (done ++ [c]) ++ rest := by simp
    rw [List.foldl_cons, heq]
    exact hres

/-- The deduplication result: every kept candidate comes from the input and
dominates all input candidates with its normalized value. -/
lemma deduplicate_candidates_spec (cs : List Candidate) (f : String) :
    ∀ c ∈ deduplicate_candidates cs f, c ∈ cs ∧
      ∀ c' ∈ cs, normVal c' = normVal c → c'.confidence ≤ c.confidence := by
  intro c hc
  unfold deduplicate_candidates at hc
  rw [mem_pySortDesc] at hc
  obtain ⟨p, hp, hpc⟩ := List.mem_map.mp hc
  have hfold := dedup_fold_ok cs [] []
    (by intro p hp; cases hp) (by intro c' hc'; cases hc') List.nodup_nil
  obtain ⟨e1, e2, e3⟩ := hfold p hp
  subst hpc
  refine ⟨by simpa using e2, ?_⟩
  intro c' hc' hn
  exact e3 c' (by simpa using hc') (by rw [e1]; exact hn)

/-- The genre query issues nothing when no artist is known. -/
lemma query_genre_no_artist (h : Heap) (now : Q) (o : MBOracle) (es : EvidenceState)
    (lc : List Candidate) (hA : mtruthy es.existing_metadata "artist" = false) :
    (query_musicbrainz h now o es "genre" lc).1 = [] := by
  have hq : query_musicbrainz h now o es "genre" lc =
      (let br := query_mb_genre_branch (rateStamp h now) (rateNow h now) o es
       (br.1, br.2.1, rateNow h now, rateEffs h now ++ br.2.2)) := rfl
  rw [hq]
  simp only [query_mb_genre_branch, hA]
  rfl

/-- Dispatch on an unknown field yields the empty list. -/
lemma pli_unknown (cy : Int) (es : EvidenceState) (field : String)
    (hf : field ∉ eightFields) : perform_local_inference cy es field = [] := by
  simp only [eightFields, List.mem_cons, List.not_mem_nil, or_false, not_or] at hf
  obtain ⟨h1, h2, h3, h4, h5, h6, h7, h8⟩ := hf
  simp [perform_local_inference, h1, h2, h3, h4, h5, h6, h7, h8]

/-- The external dispatch on a field outside the nine handled names issues
no query and yields the empty list. -/
lemma query_unknown (h : Heap) (now : Q) (o : MBOracle) (es : EvidenceState)
    (field : String) (lc : List Candidate) (hf : field ∉ nineFields) :
    (query_musicbrainz h now o es field lc).1 = [] := by
  simp only [nineFields, eightFields, List.mem_append, List.mem_cons, List.not_mem_nil,
    or_false, not_or] at hf
  obtain ⟨⟨h1, h2, h3, h4, h5, h6, h7, h8⟩, h9⟩ := hf
  simp only [query_musicbrainz]
  rw [if_neg (by tauto), if_neg h9, if_neg h6, if_neg h5]

/-- infer_field on a field outside the nine handled names returns the empty
list. -/
lemma infer_field_unknown (h : Heap) (now : Q) (cy : Int) (o : MBOracle)
    (path : MusicPath) (field : String) (hf : field ∉ nineFields) :
    (infer_field h now cy o path field).candidates = [] := by
  have h8 : field ∉ eightFields := fun hx => hf (List.mem_append_left _ hx)
  have hloc := pli_unknown cy (build_evidence_state path h.existing_metadata h.folder_context)
    field h8
  simp only [infer_field]
  rw [hloc]
  split_ifs with hg
  · rw [query_unknown h now o _ field [] hf]
    rfl
  · rfl

/-- Claim C9 (confirmed): infer_field leaves its existing_metadata and
folder_context arguments untouched; the only engine-owned state that can
change is the cache and the rate-limit timestamp threaded in the heap. -/
theorem c9_frame_effects (h : Heap) (now : Q) (cy : Int) (o : MBOracle)
    (path : MusicPath) (field : String) :
    ((infer_field h now cy o path field).heap).existing_metadata = h.existing_metadata ∧
    ((infer_field h now cy o path field).heap).folder_context = h.folder_context := by
  simp only [infer_field]
  split_ifs
  · exact ⟨(query_musicbrainz_pres h now o _ field _).1,
      (query_musicbrainz_pres h now o _ field _).2.1⟩
  · exact ⟨rfl, rfl⟩

/-- Claim C1 (code_bug): with a local folder-name candidate at confidence
80 and an external musicbrainz candidate at 70 agreeing on the same
normalized value, synthesis yields confidence 85 = max + 5. The source
tests for the literal label local, which no local heuristic ever emits, so
the claimed 15-point local-plus-external boost (which would give
min(80+15,95) = 95) is never applied. -/
theorem c1_consensus_boost_dead_local_label :
    synthesize_candidates [c1LocalCand] [c1MbCand] esNeutral "album" =
      [{ value := "Abbey Road", confidence := 85, source := "consensus",
         evidence := ["multiple_sources_agree"],
         sources := some ["folder_name", "musicbrainz"],
         agreement_count := some 2 }] ∧
    min ((80 : Q) + 15) 95 = 95 ∧ ((85 : Q) ≠ 95) := by decide

/-- Claim C2 (corrected), counterexample: the gate does not return false
for genre with nothing known (the empty-local-candidates rule fires first
and returns true), and it does not return false in every case beyond the
listed ones (for the title field with a confident local candidate and a
known artist it returns true). -/
theorem c2_gate_counterexample :
    should_query_musicbrainz "genre" [] [] = true ∧
    should_query_musicbrainz "title" [mkCand "T" 85 "filename_pattern" []]
      [("artist", "X")] = true := by decide

/-- Claim C2 (corrected), amended: the gate equals the amended table (the
track/disc, empty-local and low-confidence rules as claimed, then per-field
context rules for genre, date, album, artist, title, albumartist and
composer, otherwise false), and for genre with no known artist the external
query contributes nothing, so infer_field still returns the empty list. -/
theorem c2_gate_amended :
    (∀ (field : String) (lc : List Candidate) (md : Metadata),
        should_query_musicbrainz field lc md = shouldQuerySpecAmended field lc md) ∧
    (∀ (h : Heap) (now : Q) (cy : Int) (o : MBOracle) (path : MusicPath),
        mtruthy h.existing_metadata "artist" = false →
        (infer_field h now cy o path "genre").candidates = []) := by
  constructor
  · intro f lc md
    by_cases h1 : f = "track"
    · subst h1; rfl
    by_cases h2 : f = "disc"
    · subst h2; rfl
    have ho : ¬(f = "track" ∨ f = "disc") := by tauto
    have hm : f ∉ ["track", "disc"] := by simp [h1, h2]
    simp only [should_query_musicbrainz, shouldQuerySpecAmended]
    rw [if_neg ho, if_neg hm]
    cases lc <;> rfl
  · intro h now cy o path hA
    simp only [infer_field]
    have hloc : perform_local_inference cy
        (build_evidence_state path h.existing_metadata h.folder_context) "genre" = [] := rfl
    rw [hloc]
    have hgate : should_query_musicbrainz "genre" [] h.existing_metadata = true := rfl
    rw [if_pos hgate]
    rw [query_genre_no_artist h now o _ [] hA]
    rfl

/-- Claim C2 witness: a concrete genre call with empty metadata returns the
empty candidate list. -/
theorem c2_gate_witness :
    mtruthy hEmpty.existing_metadata "artist" = false ∧
    (infer_field hEmpty 7 2026 failOracle ⟨["music", "A", "B"], "01 - x.mp3"⟩
      "genre").candidates = [] :=
  ⟨rfl, c2_gate_amended.2 hEmpty 7 2026 failOracle ⟨["music", "A", "B"], "01 - x.mp3"⟩ rfl⟩

/-- Claim C4 (code_bug): for music/Artist/Album/01 - Song.mp3 the evidence
state's folder_parts is the single-element list of the immediate parent
name (the source splits parent.name, not the directory path), so artist
inference never emits the claimed second-from-last path segment at
confidence 80; the value Artist only appears via the grandparent rule at
confidence 75. -/
theorem c4_artist_folder_collapse :
    esArtistAlbum.folder_parts = ["Album"] ∧
    (infer_artist esArtistAlbum).map (fun c => (c.value, c.confidence, c.source)) =
      [("Artist", 75, "folder_structure"), ("-", 75, "filename_pattern")] ∧
    ((infer_artist esArtistAlbum).filter (fun c => c.confidence = (80 : Q))).length = 0 := by
  decide

/-- Claim C5 (corrected), counterexample: with a fresh cache entry for the
pending recording query and the last external request half a second ago,
the query still sleeps half a second and still moves the last-request
timestamp, although the cache hit means no network call happens and the
cache is unchanged. -/
theorem c5_cache_counterexample :
    (query_musicbrainz h5 100 failOracle es5 "title" []).2.2.2 = [Effect.sleep (mkQ 1 2)] ∧
    (query_musicbrainz h5 100 failOracle es5 "title" []).2.1.cache = h5.cache ∧
    (query_musicbrainz h5 100 failOracle es5 "title" []).2.1.mb_last_request ≠
      h5.mb_last_request := by decide

/-- Claim C5 (corrected), amended: a cache hit does skip the network call
(the search functions return the cached data with no effect and an
unchanged heap), but the rate-limiter wait and the last-request stamp
happen before the cache check: every external query updates the timestamp
to the post-sleep clock. -/
theorem c5_cache_amended :
    (∀ (h : Heap) (now : Q) (o : MBOracle) (a t : String) (d : CachedData),
        cacheLookupFresh h.cache ("rec:" ++ a ++ ":" ++ t) now = some d →
        mb_search_recordings h now o a t = (asRecs d, h, [])) ∧
    (∀ (h : Heap) (now : Q) (o : MBOracle) (a : String) (d : CachedData),
        cacheLookupFresh h.cache ("artist:" ++ a) now = some d →
        mb_search_artist h now o a = (asArts d, h, [])) ∧
    (∀ (h : Heap) (now : Q) (o : MBOracle) (a b : String) (d : CachedData),
        cacheLookupFresh h.cache ("release:" ++ a ++ ":" ++ b) now = some d →
        mb_search_release h now o a b = (asRels d, h, [])) ∧
    (∀ (h : Heap) (now : Q) (o : MBOracle) (es : EvidenceState) (field : String)
        (lc : List Candidate),
        ((query_musicbrainz h now o es field lc).2.1).mb_last_request = rateNow h now) := by
  refine ⟨?_, ?_, ?_, ?_⟩
  · intro h now o a t d hc
    simp only [mb_search_recordings, hc]
  · intro h now o a d hc
    simp only [mb_search_artist, hc]
  · intro h now o a b d hc
    simp only [mb_search_release, hc]
  · intro h now o es field lc
    exact (query_musicbrainz_pres h now o es field lc).2.2

/-- Claim C5 witness: the concrete fresh cache entry of the h5 fixture is
returned without any effect. -/
theorem c5_cache_witness :
    cacheLookupFresh h5.cache ("rec:" ++ "A" ++ ":" ++ "T") (mkQ 201 2) =
      some (CachedData.recs { recordings := [] }) ∧
    mb_search_recordings h5 (mkQ 201 2) failOracle "A" "T" =
      (asRecs (CachedData.recs { recordings := [] }), h5, []) :=
  ⟨by decide,
   c5_cache_amended.1 h5 (mkQ 201 2) failOracle "A" "T"
     (CachedData.recs { recordings := [] }) (by decide)⟩

/-- Claim C6 (corrected), counterexample: for Artist_Song.mp3 with the
artist already known, the title heuristics generate the value Song twice,
at confidences 75 and 90, and the title deduplication keeps the first
generated candidate at 75, not the highest-confidence duplicate at 90. -/
theorem c6_dedup_counterexample :
    (infer_title_candidates esC6).map (fun c => (c.value, c.confidence)) =
      [("Song", 75), ("Song", 90)] ∧
    (infer_title esC6).map (fun c => (c.value, c.confidence)) = [("Song", 75)] := by decide

/-- Claim C6 (corrected), amended: the shared deduplication used by the
artist, album, date, albumartist and disc heuristics (genre returning
nothing) does deduplicate by lowercased-trimmed value keeping the
highest-confidence duplicate; the title function instead deduplicates by
exact cleaned value keeping the first occurrence, and the track function by
exact value. -/
theorem c6_dedup_amended :
    (∀ (cs : List Candidate) (f : String) (c : Candidate),
        c ∈ deduplicate_candidates cs f →
        c ∈ cs ∧ ∀ c' ∈ cs, normVal c' = normVal c → c'.confidence ≤ c.confidence) ∧
    (∀ es, infer_artist es = deduplicate_candidates (infer_artist_candidates es) "artist") ∧
    (∀ es, infer_album es = deduplicate_candidates (infer_album_candidates es) "album") ∧
    (∀ (cy : Int) es, infer_date cy es =
        deduplicate_candidates (infer_date_valid cy es) "date") ∧
    (∀ es, infer_albumartist es =
        deduplicate_candidates (infer_albumartist_candidates es) "albumartist") ∧
    (∀ es, infer_disc es = deduplicate_candidates (infer_disc_candidates es) "disc") ∧
    (∀ es, infer_genre es = []) :=
  ⟨fun cs f c hc => deduplicate_candidates_spec cs f c hc,
   fun _ => rfl, fun _ => rfl, fun _ _ => rfl, fun _ => rfl, fun _ => rfl, fun _ => rfl⟩

/-- Claim C6 witness: on a concrete pair of candidates normalizing to the
same value, the kept candidate dominates both. -/
theorem c6_dedup_witness :
    (mkCand "A " 60 "s2" []) ∈ deduplicate_candidates cs6 "artist" ∧
    (∀ c' ∈ cs6, normVal c' = normVal (mkCand "A " 60 "s2" []) →
        c'.confidence ≤ (mkCand "A " 60 "s2" []).confidence) :=
  ⟨by decide,
   (c6_dedup_amended.1 cs6 "artist" (mkCand "A " 60 "s2" []) (by decide)).2⟩

/-- Claim C7 (corrected), counterexample: with one sibling that does not
match and a current file that does, one of the two counted filenames
matches (50 percent, below the claimed 70 percent threshold), yet
track_pattern is set, because the source compares the match count over
siblings plus the current file against 0.7 times the sibling count alone. -/
theorem c7_sibling_counterexample :
    (analyze_sibling_patterns [⟨"abc.mp3", ""⟩] "01 - x.mp3").track_pattern =
      some "prefix_number" ∧
    ((["abc.mp3", "01 - x.mp3"] : List String).filter
      (fun fn => leadingTrackFull fn)).length = 1 ∧
    Q.ofNat 1 < Q.ofNat 2 * mkQ 7 10 := by decide

/-- Claim C7 (corrected), amended: track_pattern is set exactly when the
sibling list is nonempty, the sibling filenames other than the current file
are nonempty, and the number of leading-number matches among those
filenames plus the current file strictly exceeds 0.7 times the number of
sibling filenames with the current file excluded from that denominator. -/
theorem c7_sibling_amended (siblings : List Sibling) (current : String) :
    (analyze_sibling_patterns siblings current).track_pattern = some "prefix_number" ↔
      (¬ siblings.isEmpty = true ∧
       ¬ ((siblings.filter (fun s => s.name ≠ current)).map (fun s => s.name)).isEmpty = true ∧
       Q.ofNat ((siblings.filter (fun s => s.name ≠ current)).map (fun s => s.name)).length *
           mkQ 7 10 <
         Q.ofNat ((((siblings.filter (fun s => s.name ≠ current)).map (fun s => s.name)) ++
           [current]).filter (fun fn => leadingTrackFull fn)).length) := by
  simp only [analyze_sibling_patterns]
  split_ifs with hs hf hlt hpfx hpfx
  · constructor
    · intro hx
      exact absurd hx (by simp [emptySiblingPatterns])
    · rintro ⟨h1, -, -⟩
      exact absurd hs h1
  · constructor
    · intro hx
      exact absurd hx (by simp [emptySiblingPatterns])
    · rintro ⟨-, h2, -⟩
      exact absurd hf h2
  · constructor
    · intro _
      exact ⟨hs, hf, hlt⟩
    · intro _
      rfl
  · constructor
    · intro _
      exact ⟨hs, hf, hlt⟩
    · intro _
      rfl
  · constructor
    · intro hx
      exact absurd hx (by simp [emptySiblingPatterns])
    · rintro ⟨-, -, h3⟩
      exact absurd h3 hlt
  · constructor
    · intro hx
      exact absurd hx (by simp [emptySiblingPatterns])
    · rintro ⟨-, -, h3⟩
      exact absurd h3 hlt

/-- Claim C8 (confirmed): local dispatch on a field outside the eight-entry
table yields the empty list rather than an error, and infer_field on a
field outside every handled name terminates with the empty list; in the
embedding every function is total, so no exception can escape. -/
theorem c8_unknown_field :
    (∀ (cy : Int) (es : EvidenceState) (field : String), field ∉ eightFields →
        perform_local_inference cy es field = []) ∧
    (∀ (h : Heap) (now : Q) (cy : Int) (o : MBOracle) (path : MusicPath) (field : String),
        field ∉ nineFields → (infer_field h now cy o path field).candidates = []) :=
  ⟨fun cy es field hf => pli_unknown cy es field hf,
   fun h now cy o path field hf => infer_field_unknown h now cy o path field hf⟩

/-- Claim C8 witness: the unknown field lyrics yields empty lists. -/
theorem c8_unknown_field_witness :
    ("lyrics" ∉ nineFields) ∧
    (infer_field hEmpty 0 2026 failOracle ⟨["m"], "x.mp3"⟩ "lyrics").candidates = [] :=
  ⟨by decide,
   c8_unknown_field.2 hEmpty 0 2026 failOracle ⟨["m"], "x.mp3"⟩ "lyrics" (by decide)⟩

/-- Claim C10 (confirmed): when the cache has no fresh entry and the
network request fails, each search function returns the empty result shape
and the heap, including the cache, is unchanged, so a later identical query
will miss the cache and attempt the network again. -/
theorem c10_failed_search_uncached :
    (∀ (h : Heap) (now : Q) (o : MBOracle) (a t : String),
        cacheLookupFresh h.cache ("rec:" ++ a ++ ":" ++ t) now = none →
        o.recQuery a t = Except.error () →
        mb_search_recordings h now o a t =
          ({ recordings := [] }, h, [Effect.net "recording"])) ∧
    (∀ (h : Heap) (now : Q) (o : MBOracle) (a : String),
        cacheLookupFresh h.cache ("artist:" ++ a) now = none →
        o.artQuery a = Except.error () →
        mb_search_artist h now o a = ({ artists := [] }, h, [Effect.net "artist"])) ∧
    (∀ (h : Heap) (now : Q) (o : MBOracle) (a b : String),
        cacheLookupFresh h.cache ("release:" ++ a ++ ":" ++ b) now = none →
        o.relQuery a b = Except.error () →
        mb_search_release h now o a b = ({ releases := [] }, h, [Effect.net "release"])) := by
  refine ⟨?_, ?_, ?_⟩
  · intro h now o a t hc ho
    simp only [mb_search_recordings, hc, ho]
  · intro h now o a hc ho
    simp only [mb_search_artist, hc, ho]
  · intro h now o a b hc ho
    simp only [mb_search_release, hc, ho]

/-- Claim C10 witness: a failed recording search on an empty cache returns
the empty shape and the unchanged heap. -/
theorem c10_failed_search_uncached_witness :
    cacheLookupFresh hEmpty.cache ("rec:" ++ "A" ++ ":" ++ "T") 0 = none ∧
    mb_search_recordings hEmpty 0 failOracle "A" "T" =
      ({ recordings := [] }, hEmpty, [Effect.net "recording"]) :=
  ⟨rfl, c10_failed_search_uncached.1 hEmpty 0 failOracle "A" "T" rfl rfl⟩

end MetadataRemote
